import Mathlib

/-!
# http-echo: response shaping and server lifecycle

A shallow embedding of `cmd/http-echo/main.go`, together with the parts of the Go library
the handlers run on.

* Go `string` and `[]byte` values are byte lists.
* `strconv.Atoi` follows the library: the fast path for short strings, `ParseInt` and
  `ParseUint` otherwise, with their syntax and range errors.
* `float64` is IEEE 754 binary64 with round-to-nearest-even: a value is a NaN, an
  infinity, or a sign together with a rational magnitude (so both zeros exist).
* The response writer is the one of the `net/http` server. `WriteHeader` does nothing once
  a status is settled, panics on a code outside 100..999, sends a 1xx code other than 101
  as an informational response that settles nothing, and settles every other code.
  `Write` settles 200 first when nothing is settled, drops the bytes when the status
  allows no body (1xx, 204, 304), and otherwise passes them through a 2048-byte buffer;
  the response header goes out when that buffer overflows.
* A panic of the writer ends the handler: the steps after it do not run.
* Once the response header has gone out, the server has discarded and closed an unread
  request body of less than 256 KB, and `ioutil.ReadAll` returns nothing. Requests are
  taken to be HTTP/1.1 requests with a `Content-Length` and without `Expect`, on a
  connection that is kept alive.
* `rand.Float64` reads the next element of an explicit stream of draws.
* `time.Sleep` and `log.Printf` append to lists carried in the handler state.
* The deferred `trace` call of `httpEcho` gets the log stream, never the response writer;
  it is left out.
-/

namespace HttpEcho

/-! ## Strings -/

/-- A Go `string` or `[]byte`: a finite sequence of bytes. -/
abbrev GoString := List UInt8

/-- The bytes of an ASCII string literal of the source. -/
def lit (s : String) : GoString := s.data.map (fun c => UInt8.ofNat c.toNat)

/-! ## strconv.Atoi -/

/-- The two error kinds of `strconv`. -/
inductive NumError where
  | ErrSyntax
  | ErrRange
deriving DecidableEq, Repr

/-- The digit loop of the fast path of `strconv.Atoi`: `ch -= 48` on a byte, a syntax error
(`none`) when the result is above 9. -/
def atoiDigits : GoString → Nat → Option Nat
  | [], n => some n
  | ch :: rest, n => if (ch - 48 : UInt8) > 9 then none else atoiDigits rest (n * 10 + (ch - 48).toNat)

/-- The digit loop of `strconv.ParseUint` in base 10 for 64 bits, from the value `n` read so
far. A byte that is no digit is a syntax error with value 0; a value that would pass
`2 ^ 64 - 1` is a range error with that bound, returned at once, before the bytes that
follow are looked at. -/
def parseUintLoop : GoString → Nat → Nat × Option NumError
  | [], n => (n, none)
  | c :: rest, n =>
    if 48 ≤ c ∧ c ≤ 57 then
      if (2 ^ 64 - 1) / 10 + 1 ≤ n then (2 ^ 64 - 1, some .ErrRange)
      else if 2 ^ 64 - 1 < n * 10 + (c.toNat - 48) then (2 ^ 64 - 1, some .ErrRange)
      else parseUintLoop rest (n * 10 + (c.toNat - 48))
    else (0, some .ErrSyntax)

/-- The library function `strconv.ParseUint(s, 10, 64)`. -/
def ParseUint (s : GoString) : Nat × Option NumError :=
  if s = [] then (0, some .ErrSyntax) else parseUintLoop s 0

/-- The library function `strconv.ParseInt(s, 10, 0)` for a 64-bit `int`: a sign, then
`ParseUint`; a syntax error returns 0, a value out of range the nearest bound with a range
error. -/
def ParseInt (s : GoString) : Int × Option NumError :=
  match s with
  | [] => (0, some .ErrSyntax)
  | c :: rest =>
    let neg : Bool := c = 45
    let ds := if c = 43 ∨ c = 45 then rest else s
    match ParseUint ds with
    | (_, some .ErrSyntax) => (0, some .ErrSyntax)
    | (un, _) =>
      if neg = false ∧ 2 ^ 63 ≤ un then (2 ^ 63 - 1, some .ErrRange)
      else if neg = true ∧ 2 ^ 63 < un then (-2 ^ 63, some .ErrRange)
      else (if neg then -(un : Int) else (un : Int), none)

/-- The library function `strconv.Atoi` for a 64-bit `int`: strings of 1 to 18 bytes take
the fast path (a sign, then digits that cannot overflow), all others go to `ParseInt`. -/
def Atoi (s : GoString) : Int × Option NumError :=
  if 0 < s.length ∧ s.length < 19 then
    match s with
    | [] => (0, some .ErrSyntax)
    | c :: rest =>
      let ds := if c = 45 ∨ c = 43 then rest else s
      if ds.length < 1 then (0, some .ErrSyntax)
      else
        match atoiDigits ds 0 with
        | none => (0, some .ErrSyntax)
        | some n => (if c = 45 then -(n : Int) else (n : Int), none)
  else ParseInt s

/-! ## float64 -/

/-- IEEE 754 binary64. A finite value is its sign and its magnitude, a non-negative
rational on the binary64 grid; the two zeros are `fin false 0` and `fin true 0`. -/
inductive Float64 where
  | nan
  | inf (neg : Bool)
  | fin (neg : Bool) (mag : ℚ)
deriving DecidableEq

namespace Float64

/-- Nearest integer, ties to the even one. -/
def roundHalfEven (x : ℚ) : ℤ :=
  if x - ⌊x⌋ < 1 / 2 then ⌊x⌋
  else if 1 / 2 < x - ⌊x⌋ then ⌊x⌋ + 1
  else if ⌊x⌋ % 2 = 0 then ⌊x⌋ else ⌊x⌋ + 1

/-- Exponent of the unit in the last place of the binade of `q`, for `0 < q`: 53 bits of
precision, the smallest normal exponent is -1022. -/
def ulpExp (q : ℚ) : ℤ := max (Int.log 2 q) (-1022) - 52

/-- Round the exact magnitude `q` (with `0 ≤ q`) of a result of sign `neg` to binary64:
to the nearest value of the grid, ties to even; a result of `2 ^ 1024` or more overflows to
infinity, a result below half the smallest subnormal becomes a zero of that sign. -/
def roundNearest (neg : Bool) (q : ℚ) : Float64 :=
  if q = 0 then fin neg 0
  else if (2 : ℚ) ^ (1024 : ℕ) ≤ roundHalfEven (q / 2 ^ ulpExp q) * 2 ^ ulpExp q then inf neg
  else fin neg (roundHalfEven (q / 2 ^ ulpExp q) * 2 ^ ulpExp q)

/-- The signed value of a finite sign and magnitude. -/
def signed (neg : Bool) (mag : ℚ) : ℚ := if neg then -mag else mag

/-- Go `a / b` on `float64`. -/
def div : Float64 → Float64 → Float64
  | nan, _ => nan
  | inf _, nan => nan
  | inf _, inf _ => nan
  | inf s, fin t _ => inf (xor s t)
  | fin _ _, nan => nan
  | fin s _, inf t => fin (xor s t) 0
  | fin s a, fin t b =>
    if b = 0 then (if a = 0 then nan else inf (xor s t))
    else roundNearest (xor s t) (a / b)

/-- Go `a * b` on `float64`. -/
def mul : Float64 → Float64 → Float64
  | nan, _ => nan
  | inf _, nan => nan
  | inf s, inf t => inf (xor s t)
  | inf s, fin t b => if b = 0 then nan else inf (xor s t)
  | fin _ _, nan => nan
  | fin s a, inf t => if a = 0 then nan else inf (xor s t)
  | fin s a, fin t b => roundNearest (xor s t) (a * b)

/-- Go `a <= b` on `float64`: false when an operand is a NaN, and the two zeros are equal. -/
def le : Float64 → Float64 → Bool
  | nan, _ => false
  | inf _, nan => false
  | inf s, inf t => s || !t
  | inf s, fin _ _ => s
  | fin _ _, nan => false
  | fin _ _, inf t => !t
  | fin s a, fin t b => decide (signed s a ≤ signed t b)

/-- Go `a != b` on `float64`: true when an operand is a NaN, and the two zeros are equal. -/
def ne : Float64 → Float64 → Bool
  | nan, _ => true
  | inf _, nan => true
  | inf s, inf t => s != t
  | inf _, fin _ _ => true
  | fin _ _, nan => true
  | fin _ _, inf _ => true
  | fin s a, fin t b => decide (signed s a ≠ signed t b)

/-- The conversion `float64(i)` of an `int`. -/
def ofInt (i : Int) : Float64 := roundNearest (decide (i < 0)) (|i| : ℤ)

/-- An integer constant of the source used as a `float64` (100, 0, `time.Millisecond`):
the constants that occur are exact. -/
def const (n : Nat) : Float64 := fin false n

/-- The conversion `int64(f)`, which truncates toward zero. `none` stands for the cases
where the Go specification leaves the result to the implementation: a NaN, an infinity, or
a value outside the `int64` range. -/
def toInt64 : Float64 → Option Int
  | nan => none
  | inf _ => none
  | fin s a =>
    let v : Int := if s then -⌊a⌋ else ⌊a⌋
    if -2 ^ 63 ≤ v ∧ v < 2 ^ 63 then some v else none

/-- A result of `rand.Float64`: a non-negative finite value below 1. -/
def inUnit : Float64 → Prop
  | fin false q => 0 ≤ q ∧ q < 1
  | _ => False

/-- A draw in the open interval from 0 to 1. -/
def inOpenUnit : Float64 → Prop
  | fin false q => 0 < q ∧ q < 1
  | _ => False

end Float64

/-! ## The response writer -/

/-- The state of the response writer of the `net/http` server: whether a final status is
settled, which one, the body bytes accepted so far, the codes of the `WriteHeader` calls
that returned (in order, also those that came too late), the informational 1xx responses
sent, how many bytes wait in the 2048-byte write buffer, and whether the response header
has gone out to the client. -/
structure ResponseWriter where
  wroteHeader : Bool
  status : Int
  body : GoString
  headerCalls : List Int
  informational : List Int
  buffered : Nat
  flushed : Bool
deriving DecidableEq

/-- The library function `bodyAllowedForStatus`: no body with 1xx, 204 and 304. -/
def bodyAllowedForStatus (status : Int) : Bool :=
  if 100 ≤ status ∧ status ≤ 199 then false
  else if status = 204 then false
  else if status = 304 then false
  else true

/-- The size of the write buffer in front of the response header (the library constant
`bufferBeforeChunkingSize`). -/
def bufferBeforeChunkingSize : Nat := 2048

/-- The largest unread request body the server discards when the response header goes out
(the library constant `maxPostHandlerReadBytes`, 256 KB). -/
def maxPostHandlerReadBytes : Nat := 262144

namespace ResponseWriter

/-- The writer a handler receives: nothing settled, nothing sent. -/
def fresh : ResponseWriter := ⟨false, 0, [], [], [], 0, false⟩

/-- The method `WriteHeader(code)`; `none` is a panic. Once a status is settled the call
is logged as superfluous and does nothing more. Otherwise a code outside 100..999 panics, a
1xx code other than 101 goes out as an informational response and settles nothing, and any
other code is settled as the status of the response. -/
def WriteHeader (w : ResponseWriter) (code : Int) : Option ResponseWriter :=
  if w.wroteHeader then some { w with headerCalls := w.headerCalls ++ [code] }
  else if code < 100 ∨ 999 < code then none
  else if 100 ≤ code ∧ code ≤ 199 ∧ code ≠ 101 then
    some { w with informational := w.informational ++ [code],
                  headerCalls := w.headerCalls ++ [code] }
  else some { w with wroteHeader := true, status := code,
                     headerCalls := w.headerCalls ++ [code] }

/-- The buffered part of `Write`: the bytes are accepted; they fill the buffer, and the
response header goes out when they do not fit in what is left of it. -/
def bufferedWrite (w : ResponseWriter) (p : GoString) : ResponseWriter :=
  if p.length ≤ bufferBeforeChunkingSize - w.buffered then
    { w with body := w.body ++ p, buffered := w.buffered + p.length }
  else
    { w with body := w.body ++ p, flushed := true,
             buffered :=
               if w.buffered = 0 then 0
               else if bufferBeforeChunkingSize
                   < p.length - (bufferBeforeChunkingSize - w.buffered) then 0
               else p.length - (bufferBeforeChunkingSize - w.buffered) }

/-- The implicit `WriteHeader(http.StatusOK)` at the start of `Write`: settles 200 when
nothing is settled (200 is neither refused nor informational). -/
def implicitOK (w : ResponseWriter) : ResponseWriter :=
  if w.wroteHeader then w else { w with wroteHeader := true, status := 200 }

/-- The method `Write(p)`: settles status 200 first when nothing is settled; then nothing
for an empty `p`, the error `ErrBodyNotAllowed` (the bytes are dropped) when the status
allows no body, and the buffered write otherwise. -/
def Write (w : ResponseWriter) (p : GoString) : ResponseWriter :=
  if p.length = 0 then w.implicitOK
  else if bodyAllowedForStatus w.implicitOK.status = false then w.implicitOK
  else w.implicitOK.bufferedWrite p

end ResponseWriter

/-- The call `fmt.Fprintln(w, s)`: one `Write` of `s` and a newline; its error is not
looked at. -/
def Fprintln (w : ResponseWriter) (s : GoString) : ResponseWriter :=
  w.Write (s ++ [10])

/-! ## Requests -/

/-- The type `url.Values`: keys with their lists of values. -/
abbrev Values := List (GoString × List GoString)

/-- The method `Values.Get`: the first value of the key, the empty string without one. -/
def Values.Get (v : Values) (key : GoString) : GoString :=
  match v.lookup key with
  | some (x :: _) => x
  | _ => []

/-- What the echo handler reads of a request: the parsed query `r.URL.Query()` and the
request body the client sent. -/
structure Request where
  query : Values
  body : GoString

/-- The call `ioutil.ReadAll(r.Body)` (its error is dropped by the handler) at writer state
`w`. The request body is read whole, unless the response header has gone out before: the
server has then discarded and closed an unread body below `maxPostHandlerReadBytes`, and
nothing is returned. -/
def ReadAll (r : Request) (w : ResponseWriter) : GoString :=
  if w.flushed = true ∧ r.body.length < maxPostHandlerReadBytes then [] else r.body

/-! ## The random source, sleeping and logging -/

/-- The process-wide random source: the values successive `rand.Float64` calls return, and
how many were taken. -/
structure Rand where
  draws : Nat → Float64
  pos : Nat

/-- The call `rand.Float64()`. -/
def Rand.Float64 (r : Rand) : Float64 × Rand := (r.draws r.pos, { r with pos := r.pos + 1 })

/-- What a handler run acts on: its response writer, the random source, the durations (in
nanoseconds) handed to `time.Sleep`, the durations reported by `log.Printf`, and whether
the handler was ended by a panic of the writer. -/
structure Ctx where
  w : ResponseWriter
  rng : Rand
  slept : List (Option Int)
  logged : List (Option Int)
  panicked : Bool

/-- A new request: fresh writer, nothing slept or logged. -/
def Ctx.start (rng : Rand) : Ctx := ⟨ResponseWriter.fresh, rng, [], [], false⟩

/-- A call `w.WriteHeader(code)` made by the handler: a panic of the writer is the end of
the handler. -/
def Ctx.WriteHeader (s : Ctx) (code : Int) : Ctx :=
  match s.w.WriteHeader code with
  | some w => { s with w := w }
  | none => { s with panicked := true }

/-! ## The handlers -/

/-- The function `setResponseCode` of the source. -/
def setResponseCode (code : Int) (rate : Float64) (s : Ctx) : Ctx :=
  if code ≠ 200 then
    if Float64.le s.rng.Float64.1 (Float64.div rate (Float64.const 100)) then
      Ctx.WriteHeader { s with rng := s.rng.Float64.2 } code
    else { s with rng := s.rng.Float64.2 }
  else s

/-- The constant `time.Millisecond`, in nanoseconds. -/
def Millisecond : Nat := 1000000

/-- The constant `time.Second`, in nanoseconds. -/
def Second : Nat := 1000000000

/-- The function `setTimeout` of the source. -/
def setTimeout (delay : Float64) (rate : Float64) (s : Ctx) : Ctx :=
  if Float64.ne delay (Float64.const 0) then
    if Float64.le s.rng.Float64.1 (Float64.div rate (Float64.const 100)) then
      let duration := Float64.toInt64 (Float64.mul (Float64.const Millisecond) delay)
      { s with rng := s.rng.Float64.2, logged := s.logged ++ [duration],
               slept := s.slept ++ [duration] }
    else { s with rng := s.rng.Float64.2 }
  else s

/-- The handler `httpEcho(logOut, text, code, rate, delay, config)` run on a request: the
status override, the rate-gated default code, the delay, then the echo. A panic in one of
the two `WriteHeader` calls ends the run there. The error of the second `Atoi` is dropped,
as in the source, and the request body is read after the text is written. -/
def httpEcho (text : GoString) (code : Int) (rate : Float64) (delay : Float64)
    (r : Request) (s : Ctx) : Ctx :=
  let delayTime := delay
  let s :=
    if r.query.Get (lit "status") ≠ [] then
      match Atoi (r.query.Get (lit "status")) with
      | (status, none) => s.WriteHeader status
      | (_, some _) => s
    else s
  if s.panicked then s
  else
    let s := setResponseCode code rate s
    if s.panicked then s
    else
      let delayTime :=
        if r.query.Get (lit "response-delay") ≠ [] then
          Float64.ofInt (Atoi (r.query.Get (lit "response-delay"))).1
        else delayTime
      let s := setTimeout delayTime rate s
      let w := Fprintln s.w text
      let body := ReadAll r w
      let w :=
        if body.length > 0 then
          Fprintln (Fprintln (Fprintln (Fprintln w (lit "")) (lit "Body")) (lit "----")) body
        else w
      { s with w := w }

/-- The value of the local `delayTime` of `httpEcho` when `setTimeout` is called: the
startup delay, replaced by the converted `response-delay` parameter whenever that parameter
is not empty. -/
def delayTime (delay : Float64) (r : Request) : Float64 :=
  if r.query.Get (lit "response-delay") ≠ [] then
    Float64.ofInt (Atoi (r.query.Get (lit "response-delay"))).1
  else delay

/-- The first step of `httpEcho`, the status override. -/
def statusOverride (r : Request) (s : Ctx) : Ctx :=
  if r.query.Get (lit "status") ≠ [] then
    match Atoi (r.query.Get (lit "status")) with
    | (status, none) => s.WriteHeader status
    | (_, some _) => s
  else s

/-- The first two steps of `httpEcho`: the status override and, unless that panicked, the
rate-gated default code. -/
def beforeDelay (code : Int) (rate : Float64) (r : Request) (s : Ctx) : Ctx :=
  if (statusOverride r s).panicked then statusOverride r s
  else setResponseCode code rate (statusOverride r s)

/-- The last step of `httpEcho`: the text, then the request body is read, then the body
banner when a body came. -/
def writeEcho (text : GoString) (r : Request) (w : ResponseWriter) : ResponseWriter :=
  if (ReadAll r (Fprintln w text)).length > 0 then
    Fprintln (Fprintln (Fprintln (Fprintln (Fprintln w text) (lit "")) (lit "Body"))
      (lit "----")) (ReadAll r (Fprintln w text))
  else Fprintln w text

/-- The handler `httpHealth()` run on a request. -/
def httpHealth (_r : Request) (s : Ctx) : Ctx :=
  { s with w := Fprintln s.w (lit "\x7b\"status\":\"ok\"\x7d") }

/-! ## Server lifecycle -/

/-- Where the process running `NewServer` stands: before the environment is parsed, serving
and waiting on the signal channel, inside `server.Shutdown` under a context with the given
timeout (nanoseconds), or gone with an exit code. -/
inductive ServerState where
  | created
  | listening
  | shuttingDown (timeout : Nat)
  | exited (code : Nat)
deriving DecidableEq

/-- What the runtime delivers to `NewServer`: the result of `env.Parse` (`true`: no error),
the return of `server.ListenAndServe` in the serving goroutine (`true`: the error is
`http.ErrServerClosed`), the interrupt on the signal channel, and the return of
`server.Shutdown` (`true`: no error; an expired context is an error). -/
inductive ServerEvent where
  | envParsed (ok : Bool)
  | serveReturned (closed : Bool)
  | interrupt
  | shutdownReturned (ok : Bool)
deriving DecidableEq

/-- One step of `NewServer`. `log.Fatalf` ends the process with code 1, the final
`os.Exit(2)` with code 2; an event the state does not wait for changes nothing. -/
def NewServer : ServerState → ServerEvent → ServerState
  | .created, .envParsed true => .listening
  | .created, .envParsed false => .exited 1
  | .listening, .serveReturned true => .listening
  | .listening, .serveReturned false => .exited 1
  | .listening, .interrupt => .shuttingDown (5 * Second)
  | .shuttingDown t, .serveReturned true => .shuttingDown t
  | .shuttingDown _, .serveReturned false => .exited 1
  | .shuttingDown _, .shutdownReturned true => .exited 2
  | .shuttingDown _, .shutdownReturned false => .exited 1
  | s, _ => s

/-- The state after a sequence of events. -/
def runServer (s : ServerState) (es : List ServerEvent) : ServerState := es.foldl NewServer s

/-! ## Request predicates used in the statements -/

/-- The request carries no status override: the `status` parameter is absent or empty, or
`Atoi` rejects it. -/
def noStatusOverride (r : Request) : Prop :=
  r.query.Get (lit "status") = [] ∨ (Atoi (r.query.Get (lit "status"))).2 ≠ none

/-- Every value the random source will return is a result of `rand.Float64`. -/
def unitDraws (rng : Rand) : Prop := ∀ i, Float64.inUnit (rng.draws i)

/-- A process that is shutting down or has left with a non-zero code. -/
def pastInterrupt : ServerState → Prop
  | .shuttingDown _ => True
  | .exited c => c ≠ 0
  | _ => False

/-! ## The rate gate -/

/-- The rate is above 100: plus infinity or a finite value above 100. -/
def rateAbove100 : Float64 → Prop
  | .inf false => True
  | .fin false q => 100 < q
  | _ => False

/-- The rate is below 0: minus infinity or a finite value below 0. -/
def rateBelow0 : Float64 → Prop
  | .inf true => True
  | .fin true q => 0 < q
  | _ => False

/-- Every value the random source will return lies inside the open interval from 0 to 1. -/
def openDraws (rng : Rand) : Prop := ∀ i, Float64.inOpenUnit (rng.draws i)

instance (x : Float64) : Decidable (Float64.inUnit x) := by
  unfold Float64.inUnit
  split <;> infer_instance

instance (x : Float64) : Decidable (Float64.inOpenUnit x) := by
  unfold Float64.inOpenUnit
  split <;> infer_instance

instance (r : Request) : Decidable (noStatusOverride r) := by
  unfold noStatusOverride
  infer_instance

instance (s : ServerState) : Decidable (pastInterrupt s) := by
  unfold pastInterrupt
  split <;> infer_instance

instance (x : Float64) : Decidable (rateAbove100 x) := by
  unfold rateAbove100
  split <;> infer_instance

instance (x : Float64) : Decidable (rateBelow0 x) := by
  unfold rateBelow0
  split <;> infer_instance

/-- A code `WriteHeader` settles as the status of the response when none is settled yet:
101, or a code from 200 to 999. -/
def settles (code : Int) : Prop := code = 101 ∨ (200 ≤ code ∧ code ≤ 999)

instance (code : Int) : Decidable (settles code) := by
  unfold settles
  infer_instance

/-! ## float64 facts -/

namespace Float64

theorem log2_eq {q : ℚ} {k : ℤ} (hlo : (2 : ℚ) ^ k ≤ q) (hhi : q < (2 : ℚ) ^ (k + 1)) :
    Int.log 2 q = k := by
  have hq : 0 < q := lt_of_lt_of_le (by positivity) hlo
  have h1 : k ≤ Int.log 2 q :=
    (Int.zpow_le_iff_le_log (by norm_num) hq).mp (by exact_mod_cast hlo)
  have h2 : Int.log 2 q < k + 1 :=
    (Int.lt_zpow_iff_log_lt (by norm_num) hq).mp (by exact_mod_cast hhi)
  omega

theorem roundHalfEven_intCast (m : ℤ) : roundHalfEven (m : ℚ) = m := by
  simp [roundHalfEven]

/-- A positive magnitude below `2 ^ 1024` that is a whole number of units in the last place
of its binade is on the grid: rounding returns it. -/
theorem roundNearest_exact (s : Bool) (q : ℚ) (m : ℤ) (hq : q ≠ 0)
    (hm : q / 2 ^ ulpExp q = m) (hlt : q < 2 ^ (1024 : ℕ)) :
    roundNearest s q = fin s q := by
  have hv : (roundHalfEven (q / 2 ^ ulpExp q) : ℚ) * 2 ^ ulpExp q = q := by
    rw [hm, roundHalfEven_intCast, ← hm]
    have : (2 : ℚ) ^ ulpExp q ≠ 0 := by positivity
    field_simp
  unfold roundNearest
  rw [if_neg hq, hv, if_neg (not_le.mpr hlt)]

theorem ulpExp_one : ulpExp 1 = -52 := by
  simp [ulpExp]

theorem div_100_100 : div (const 100) (const 100) = fin false 1 := by
  have h : roundNearest false 1 = fin false 1 := by
    apply roundNearest_exact false 1 (2 ^ 52) (by norm_num)
    · rw [ulpExp_one]; norm_num
    · norm_num
  simp [div, const, h]

theorem div_0_100 : div (const 0) (const 100) = fin false 0 := by
  simp [div, const, roundNearest]


theorem ulpExp_natCast (n : ℕ) : ulpExp (n : ℚ) = (Nat.log 2 n : ℤ) - 52 := by
  unfold ulpExp
  rw [Int.log_natCast]
  omega

/-- Natural numbers up to `2 ^ 53` are on the grid. -/
theorem roundNearest_natCast (s : Bool) (n : ℕ) (hn : n ≤ 2 ^ 53) :
    roundNearest s (n : ℚ) = fin s (n : ℚ) := by
  rcases Nat.eq_zero_or_pos n with h0 | hpos
  · subst h0
    simp [roundNearest]
  have hne : (n : ℚ) ≠ 0 := by exact_mod_cast hpos.ne'
  have hlt : (n : ℚ) < 2 ^ (1024 : ℕ) := by
    have h1 : (n : ℚ) ≤ 2 ^ (53 : ℕ) := by exact_mod_cast hn
    have h2 : (2 : ℚ) ^ (53 : ℕ) < 2 ^ (1024 : ℕ) := by norm_num
    exact lt_of_le_of_lt h1 h2
  have hk : Nat.log 2 n ≤ 53 := by
    calc Nat.log 2 n ≤ Nat.log 2 (2 ^ 53) := Nat.log_mono_right hn
      _ = 53 := Nat.log_pow (by norm_num) 53
  rcases Nat.lt_or_ge (Nat.log 2 n) 53 with hlt53 | hge53
  · -- the unit in the last place is at most 1
    obtain ⟨j, hj⟩ : ∃ j : ℕ, Nat.log 2 n + j = 52 := ⟨52 - Nat.log 2 n, by omega⟩
    apply roundNearest_exact s n ((n * 2 ^ j : ℕ) : ℤ) hne _ hlt
    rw [ulpExp_natCast]
    have he : (Nat.log 2 n : ℤ) - 52 = -(j : ℤ) := by omega
    rw [he, zpow_neg, zpow_natCast]
    push_cast
    field_simp
  · -- n is 2 ^ 53 itself
    have hk53 : Nat.log 2 n = 53 := le_antisymm hk hge53
    have hn53 : n = 2 ^ 53 := by
      apply le_antisymm hn
      have := Nat.pow_log_le_self 2 hpos.ne'
      rwa [hk53] at this
    subst hn53
    apply roundNearest_exact s _ (2 ^ 52) hne _ hlt
    rw [ulpExp_natCast, hk53]
    norm_num

theorem ofInt_exact (i : ℤ) (h : |i| ≤ 2 ^ 53) :
    ofInt i = fin (decide (i < 0)) (|i| : ℤ) := by
  unfold ofInt
  have hcast : ((|i| : ℤ) : ℚ) = ((|i|.toNat : ℕ) : ℚ) := by
    have : ((|i|.toNat : ℕ) : ℤ) = |i| := Int.toNat_of_nonneg (abs_nonneg i)
    exact_mod_cast this.symm
  rw [hcast]
  apply roundNearest_natCast
  have : ((|i|.toNat : ℕ) : ℤ) ≤ 2 ^ 53 := by rw [Int.toNat_of_nonneg (abs_nonneg i)]; exact h
  exact_mod_cast this

theorem ofInt_zero : ofInt 0 = fin false 0 := by
  simp [ofInt, roundNearest]

theorem ofInt_50 : ofInt 50 = fin false 50 := by
  have := ofInt_exact 50 (by norm_num)
  simpa using this

theorem mul_ms_50 : mul (const Millisecond) (fin false 50) = fin false 50000000 := by
  have := roundNearest_natCast false 50000000 (by norm_num)
  simp only [mul, const, Millisecond, Bool.xor_false]
  norm_num at this ⊢
  exact this

theorem toInt64_50ms : toInt64 (fin false 50000000) = some 50000000 := by
  have h : ⌊(50000000 : ℚ)⌋ = 50000000 := by
    exact_mod_cast Int.floor_intCast (50000000 : ℤ)
  simp [toInt64, h]

/-- The integer `2 ^ 53 + 1` is not on the grid: the conversion rounds it to `2 ^ 53`. -/
theorem ofInt_2p53_succ : ofInt 9007199254740993 = fin false 9007199254740992 := by
  have hlog : Int.log 2 (9007199254740993 : ℚ) = 53 := log2_eq (by norm_num) (by norm_num)
  have hu : ulpExp (9007199254740993 : ℚ) = 1 := by
    unfold ulpExp
    rw [hlog]
    norm_num
  have hfl : ⌊(9007199254740993 : ℚ) / 2⌋ = 4503599627370496 := by
    rw [Int.floor_eq_iff]; constructor <;> norm_num
  have hr : roundHalfEven ((9007199254740993 : ℚ) / 2) = 4503599627370496 := by
    unfold roundHalfEven
    rw [hfl]
    norm_num
  unfold ofInt roundNearest
  norm_num [hu, hr]

/-- Underflow: a positive magnitude below half the smallest subnormal rounds to zero. -/
theorem roundNearest_underflow (s : Bool) (q : ℚ) (hq : 0 < q)
    (hlt : q < 2 ^ (-1075 : ℤ)) : roundNearest s q = fin s 0 := by
  have hlog : Int.log 2 q ≤ -1022 := by
    have : Int.log 2 q < -1021 := by
      apply (Int.lt_zpow_iff_log_lt (by norm_num) hq).mp
      have h2 : (2 : ℚ) ^ (-1075 : ℤ) ≤ 2 ^ (-1021 : ℤ) :=
        zpow_le_zpow_right₀ (by norm_num) (by norm_num)
      exact_mod_cast lt_of_lt_of_le hlt h2
    omega
  have hu : ulpExp q = -1074 := by
    unfold ulpExp
    rw [max_eq_right hlog]
    norm_num
  have hpos : (0 : ℚ) < 2 ^ (-1074 : ℤ) := by positivity
  have hx0 : 0 < q / 2 ^ (-1074 : ℤ) := div_pos hq hpos
  have hx1 : q / 2 ^ (-1074 : ℤ) < 1 / 2 := by
    rw [div_lt_iff₀ hpos]
    have : (1 : ℚ) / 2 * 2 ^ (-1074 : ℤ) = 2 ^ (-1075 : ℤ) := by
      rw [show (-1074 : ℤ) = -1075 + 1 by norm_num, zpow_add₀ (by norm_num : (2 : ℚ) ≠ 0)]
      norm_num
    rw [this]
    exact hlt
  have hfl : ⌊q / 2 ^ (-1074 : ℤ)⌋ = 0 := by
    rw [Int.floor_eq_iff]
    constructor
    · simpa using hx0.le
    · have : (1 : ℚ) / 2 < 1 := by norm_num
      simpa using lt_trans hx1 this
  have hr : roundHalfEven (q / 2 ^ (-1074 : ℤ)) = 0 := by
    unfold roundHalfEven
    rw [hfl, if_pos (by simpa using hx1)]
  unfold roundNearest
  rw [if_neg hq.ne', hu, hr]
  simp

/-- A hundredth of the smallest subnormal, negative: the quotient underflows to the
negative zero. -/
theorem div_minSubnormal_100 :
    div (fin true (2 ^ (-1074 : ℤ))) (const 100) = fin true 0 := by
  have hq : (0 : ℚ) < 2 ^ (-1074 : ℤ) / (100 : ℕ) := by positivity
  have hlt : (2 : ℚ) ^ (-1074 : ℤ) / (100 : ℕ) < 2 ^ (-1075 : ℤ) := by
    have hp : (0 : ℚ) < 2 ^ (-1075 : ℤ) := by positivity
    have : (2 : ℚ) ^ (-1074 : ℤ) = 2 * 2 ^ (-1075 : ℤ) := by
      rw [show (-1074 : ℤ) = 1 + -1075 by norm_num, zpow_add₀ (by norm_num : (2 : ℚ) ≠ 0)]
      norm_num
    rw [this, div_lt_iff₀ (by norm_num)]
    have : (2 : ℚ) * 2 ^ (-1075 : ℤ) < 2 ^ (-1075 : ℤ) * 100 := by linarith
    exact_mod_cast this
  have h100 : ((100 : ℕ) : ℚ) ≠ 0 := by norm_num
  simp only [div, const, Bool.xor_false, if_neg h100]
  exact roundNearest_underflow true _ hq hlt

theorem floor_le_roundHalfEven (x : ℚ) : ⌊x⌋ ≤ roundHalfEven x := by
  unfold roundHalfEven
  split
  · exact le_rfl
  · split
    · omega
    · split <;> omega

/-- The result of rounding is an infinity or a finite value of the sign asked for, with a
magnitude that is not negative. -/
theorem roundNearest_sign (s : Bool) (q : ℚ) (hq : 0 ≤ q) :
    roundNearest s q = inf s ∨ ∃ v : ℚ, 0 ≤ v ∧ roundNearest s q = fin s v := by
  unfold roundNearest
  split
  · exact Or.inr ⟨0, le_rfl, rfl⟩
  · split
    · exact Or.inl rfl
    · refine Or.inr ⟨_, ?_, rfl⟩
      have hx : 0 ≤ q / 2 ^ ulpExp q := div_nonneg hq (by positivity)
      have h0 : (0 : ℤ) ≤ ⌊q / 2 ^ ulpExp q⌋ := Int.floor_nonneg.mpr hx
      have h1 : (0 : ℤ) ≤ roundHalfEven (q / 2 ^ ulpExp q) :=
        le_trans h0 (floor_le_roundHalfEven _)
      have h2 : (0 : ℚ) ≤ (roundHalfEven (q / 2 ^ ulpExp q) : ℚ) := by exact_mod_cast h1
      exact mul_nonneg h2 (by positivity)

/-- Rounding is monotone at 1: a magnitude of at least 1 rounds to at least 1. -/
theorem roundNearest_ge_one (s : Bool) (q : ℚ) (hq : 1 ≤ q) :
    roundNearest s q = inf s ∨ ∃ v : ℚ, 1 ≤ v ∧ roundNearest s q = fin s v := by
  have hpos : 0 < q := lt_of_lt_of_le one_pos hq
  have hlog : 0 ≤ Int.log 2 q := by
    apply (Int.zpow_le_iff_le_log (by norm_num) hpos).mp
    simpa using hq
  have hu : ulpExp q = Int.log 2 q - 52 := by
    unfold ulpExp
    rw [max_eq_left (by omega)]
  have hle : (2 : ℚ) ^ Int.log 2 q ≤ q := by
    have := Int.zpow_log_le_self (R := ℚ) (b := 2) (by norm_num) hpos
    exact_mod_cast this
  have hsplit : (2 : ℚ) ^ Int.log 2 q = 2 ^ (52 : ℕ) * 2 ^ ulpExp q := by
    rw [hu, ← zpow_natCast, ← zpow_add₀ (by norm_num : (2 : ℚ) ≠ 0)]
    congr 1
    push_cast
    ring
  have hx : ((2 ^ 52 : ℤ) : ℚ) ≤ q / 2 ^ ulpExp q := by
    rw [le_div_iff₀ (by positivity)]
    have hc : ((2 ^ 52 : ℤ) : ℚ) = 2 ^ (52 : ℕ) := by norm_num
    rw [hc, ← hsplit]
    exact hle
  have hfl : (2 ^ 52 : ℤ) ≤ ⌊q / 2 ^ ulpExp q⌋ := Int.le_floor.mpr hx
  have hr : (2 ^ 52 : ℤ) ≤ roundHalfEven (q / 2 ^ ulpExp q) :=
    le_trans hfl (floor_le_roundHalfEven _)
  have hv : (1 : ℚ) ≤ (roundHalfEven (q / 2 ^ ulpExp q) : ℚ) * 2 ^ ulpExp q := by
    have h1 : (1 : ℚ) ≤ 2 ^ Int.log 2 q := one_le_zpow₀ (by norm_num) hlog
    have h2 : ((2 ^ 52 : ℤ) : ℚ) ≤ (roundHalfEven (q / 2 ^ ulpExp q) : ℚ) := by
      exact_mod_cast hr
    have h3 : (2 : ℚ) ^ (52 : ℕ) * 2 ^ ulpExp q
        ≤ (roundHalfEven (q / 2 ^ ulpExp q) : ℚ) * 2 ^ ulpExp q := by
      apply mul_le_mul_of_nonneg_right _ (by positivity)
      exact_mod_cast h2
    calc (1 : ℚ) ≤ 2 ^ Int.log 2 q := h1
      _ = 2 ^ (52 : ℕ) * 2 ^ ulpExp q := hsplit
      _ ≤ _ := h3
  unfold roundNearest
  rw [if_neg hpos.ne']
  split
  · exact Or.inl rfl
  · exact Or.inr ⟨_, hv, rfl⟩

end Float64


/-! ## Basic facts about the writer -/

theorem Atoi_nil : Atoi [] = (0, some NumError.ErrSyntax) := rfl

theorem get_ne_nil_of_Atoi {s : GoString} {n : Int} (h : Atoi s = (n, none)) : s ≠ [] := by
  rintro rfl
  simp [Atoi_nil] at h

theorem WriteHeader_of_wrote (w : ResponseWriter) (c : Int) (h : w.wroteHeader = true) :
    w.WriteHeader c = some { w with headerCalls := w.headerCalls ++ [c] } := by
  simp [ResponseWriter.WriteHeader, h]

theorem WriteHeader_of_settles (w : ResponseWriter) (c : Int) (h : w.wroteHeader = false)
    (hc : settles c) :
    w.WriteHeader c = some { w with wroteHeader := true, status := c,
                                    headerCalls := w.headerCalls ++ [c] } := by
  unfold settles at hc
  have h1 : ¬ (c < 100 ∨ 999 < c) := by omega
  have h2 : ¬ (100 ≤ c ∧ c ≤ 199 ∧ c ≠ 101) := by omega
  simp only [ResponseWriter.WriteHeader, h, h1, h2]
  simp

/-- A `WriteHeader` call that returns leaves body, buffer and flush state alone. -/
theorem WriteHeader_data (w w1 : ResponseWriter) (c : Int) (h : w.WriteHeader c = some w1) :
    w1.body = w.body ∧ w1.buffered = w.buffered ∧ w1.flushed = w.flushed := by
  unfold ResponseWriter.WriteHeader at h
  split at h
  · cases h; exact ⟨rfl, rfl, rfl⟩
  · split at h
    · cases h
    · split at h <;> (cases h; exact ⟨rfl, rfl, rfl⟩)

theorem implicitOK_wrote (w : ResponseWriter) : w.implicitOK.wroteHeader = true := by
  unfold ResponseWriter.implicitOK
  split <;> simp [*]

theorem implicitOK_status (w : ResponseWriter) :
    w.implicitOK.status = if w.wroteHeader then w.status else 200 := by
  unfold ResponseWriter.implicitOK
  split <;> simp [*]

theorem implicitOK_data (w : ResponseWriter) :
    w.implicitOK.body = w.body ∧ w.implicitOK.headerCalls = w.headerCalls ∧
    w.implicitOK.buffered = w.buffered ∧ w.implicitOK.flushed = w.flushed := by
  unfold ResponseWriter.implicitOK
  split <;> simp

theorem bufferedWrite_head (w : ResponseWriter) (p : GoString) :
    (w.bufferedWrite p).wroteHeader = w.wroteHeader ∧
    (w.bufferedWrite p).status = w.status ∧
    (w.bufferedWrite p).headerCalls = w.headerCalls ∧
    (w.bufferedWrite p).body = w.body ++ p := by
  unfold ResponseWriter.bufferedWrite
  split <;> simp

theorem bufferedWrite_flushed (w : ResponseWriter) (p : GoString) (hb : w.buffered = 0) :
    (w.bufferedWrite p).flushed = (w.flushed || decide (2048 < p.length)) := by
  unfold ResponseWriter.bufferedWrite bufferBeforeChunkingSize
  by_cases hp : p.length ≤ 2048
  · have : ¬ 2048 < p.length := by omega
    simp [hb, hp, this]
  · have : 2048 < p.length := by omega
    simp [hb, hp, this]

theorem Write_wrote (w : ResponseWriter) (p : GoString) : (w.Write p).wroteHeader = true := by
  unfold ResponseWriter.Write
  split
  · exact implicitOK_wrote w
  · split
    · exact implicitOK_wrote w
    · rw [(bufferedWrite_head _ p).1]; exact implicitOK_wrote w

theorem Write_status (w : ResponseWriter) (p : GoString) :
    (w.Write p).status = if w.wroteHeader then w.status else 200 := by
  unfold ResponseWriter.Write
  split
  · exact implicitOK_status w
  · split
    · exact implicitOK_status w
    · rw [(bufferedWrite_head _ p).2.1]; exact implicitOK_status w

theorem Write_calls (w : ResponseWriter) (p : GoString) :
    (w.Write p).headerCalls = w.headerCalls := by
  unfold ResponseWriter.Write
  split
  · exact (implicitOK_data w).2.1
  · split
    · exact (implicitOK_data w).2.1
    · rw [(bufferedWrite_head _ p).2.2.1]; exact (implicitOK_data w).2.1

/-- A `Write` only appends to the body. -/
theorem Write_body_prefix (w : ResponseWriter) (p : GoString) :
    ∃ rest, (w.Write p).body = w.body ++ rest := by
  unfold ResponseWriter.Write
  split
  · exact ⟨[], by simp [(implicitOK_data w).1]⟩
  · split
    · exact ⟨[], by simp [(implicitOK_data w).1]⟩
    · exact ⟨p, by rw [(bufferedWrite_head _ p).2.2.2, (implicitOK_data w).1]⟩

/-- A `Write` of bytes under a status that allows a body appends them. -/
theorem Write_body (w : ResponseWriter) (p : GoString) (hp : p ≠ [])
    (ha : bodyAllowedForStatus (if w.wroteHeader then w.status else 200) = true) :
    (w.Write p).body = w.body ++ p := by
  have hlen : ¬ p.length = 0 := fun h => hp (List.length_eq_zero.mp h)
  unfold ResponseWriter.Write
  rw [if_neg hlen, implicitOK_status, ha, if_neg (by simp), (bufferedWrite_head _ p).2.2.2,
    (implicitOK_data w).1]

/-- Under a status that allows no body, a `Write` leaves body and flush state alone. -/
theorem Write_refused (w : ResponseWriter) (p : GoString)
    (ha : bodyAllowedForStatus (if w.wroteHeader then w.status else 200) = false) :
    (w.Write p).body = w.body ∧ (w.Write p).flushed = w.flushed := by
  unfold ResponseWriter.Write
  split
  · exact ⟨(implicitOK_data w).1, (implicitOK_data w).2.2.2⟩
  · rw [implicitOK_status, ha, if_pos rfl]
    exact ⟨(implicitOK_data w).1, (implicitOK_data w).2.2.2⟩

/-- A first `Write` that fits the buffer does not send the response header. -/
theorem Write_flushed_of_fits (w : ResponseWriter) (p : GoString) (hf : w.flushed = false)
    (hb : w.buffered = 0) (hp : p.length ≤ 2048) : (w.Write p).flushed = false := by
  unfold ResponseWriter.Write
  split
  · rw [(implicitOK_data w).2.2.2, hf]
  · split
    · rw [(implicitOK_data w).2.2.2, hf]
    · rw [bufferedWrite_flushed _ _ (by rw [(implicitOK_data w).2.2.1, hb]),
        (implicitOK_data w).2.2.2, hf]
      have : ¬ 2048 < p.length := by omega
      simp [this]

/-- A first `Write` of more than the buffer holds, under a status that allows a body, sends
the response header. -/
theorem Write_flushed_of_overflow (w : ResponseWriter) (p : GoString)
    (hb : w.buffered = 0) (hp : 2048 < p.length)
    (ha : bodyAllowedForStatus (if w.wroteHeader then w.status else 200) = true) :
    (w.Write p).flushed = true := by
  have hlen : ¬ p.length = 0 := by omega
  unfold ResponseWriter.Write
  rw [if_neg hlen, implicitOK_status, ha, if_neg (by simp),
    bufferedWrite_flushed _ _ (by rw [(implicitOK_data w).2.2.1, hb])]
  simp [hp]

theorem Fprintln_wrote (w : ResponseWriter) (p : GoString) :
    (Fprintln w p).wroteHeader = true := Write_wrote w _

theorem Fprintln_status (w : ResponseWriter) (p : GoString) :
    (Fprintln w p).status = if w.wroteHeader then w.status else 200 := Write_status w _

theorem Fprintln_calls (w : ResponseWriter) (p : GoString) :
    (Fprintln w p).headerCalls = w.headerCalls := Write_calls w _

theorem Fprintln_body_prefix (w : ResponseWriter) (p : GoString) :
    ∃ rest, (Fprintln w p).body = w.body ++ rest := Write_body_prefix w _

theorem Fprintln_body (w : ResponseWriter) (p : GoString)
    (ha : bodyAllowedForStatus (if w.wroteHeader then w.status else 200) = true) :
    (Fprintln w p).body = w.body ++ (p ++ [10]) :=
  Write_body w _ (by simp) ha

theorem Fprintln_refused (w : ResponseWriter) (p : GoString)
    (ha : bodyAllowedForStatus (if w.wroteHeader then w.status else 200) = false) :
    (Fprintln w p).body = w.body ∧ (Fprintln w p).flushed = w.flushed :=
  Write_refused w _ ha

/-- After one write the status is settled, so the next write sees the same status. -/
theorem Fprintln_allowed (w : ResponseWriter) (p : GoString)
    (ha : bodyAllowedForStatus (if w.wroteHeader then w.status else 200) = true) :
    bodyAllowedForStatus
      (if (Fprintln w p).wroteHeader then (Fprintln w p).status else 200) = true := by
  rw [Fprintln_wrote, Fprintln_status]
  simpa using ha

/-! ## Basic facts about the handler steps -/

theorem CtxWriteHeader_of_settles (s : Ctx) (c : Int) (h : s.w.wroteHeader = false)
    (hc : settles c) :
    s.WriteHeader c =
      { s with w := { s.w with wroteHeader := true, status := c,
                               headerCalls := s.w.headerCalls ++ [c] } } := by
  unfold Ctx.WriteHeader
  rw [WriteHeader_of_settles s.w c h hc]

theorem CtxWriteHeader_of_wrote (s : Ctx) (c : Int) (h : s.w.wroteHeader = true) :
    s.WriteHeader c = { s with w := { s.w with headerCalls := s.w.headerCalls ++ [c] } } := by
  unfold Ctx.WriteHeader
  rw [WriteHeader_of_wrote s.w c h]

/-- A `WriteHeader` call of the handler touches neither the body, the buffer, the random
source nor the sleeps. -/
theorem CtxWriteHeader_data (s : Ctx) (c : Int) :
    (s.WriteHeader c).w.body = s.w.body ∧ (s.WriteHeader c).w.buffered = s.w.buffered ∧
    (s.WriteHeader c).w.flushed = s.w.flushed ∧ (s.WriteHeader c).slept = s.slept ∧
    (s.WriteHeader c).rng = s.rng := by
  unfold Ctx.WriteHeader
  cases h : s.w.WriteHeader c with
  | none => exact ⟨rfl, rfl, rfl, rfl, rfl⟩
  | some w1 =>
    obtain ⟨h1, h2, h3⟩ := WriteHeader_data s.w w1 c h
    exact ⟨h1, h2, h3, rfl, rfl⟩

theorem statusOverride_none (r : Request) (s : Ctx) (h : noStatusOverride r) :
    statusOverride r s = s := by
  unfold statusOverride
  rcases h with h | h
  · simp [h]
  · split
    · split
      · rename_i heq
        rw [heq] at h
        exact absurd rfl h
      · rfl
    · rfl

theorem statusOverride_some (r : Request) (s : Ctx) (n : Int)
    (h : Atoi (r.query.Get (lit "status")) = (n, none)) :
    statusOverride r s = s.WriteHeader n := by
  unfold statusOverride
  simp [get_ne_nil_of_Atoi h, h]

theorem statusOverride_data (r : Request) (s : Ctx) :
    (statusOverride r s).w.body = s.w.body ∧ (statusOverride r s).w.buffered = s.w.buffered ∧
    (statusOverride r s).w.flushed = s.w.flushed ∧ (statusOverride r s).slept = s.slept ∧
    (statusOverride r s).rng = s.rng := by
  unfold statusOverride
  split
  · split
    · exact CtxWriteHeader_data s _
    · exact ⟨rfl, rfl, rfl, rfl, rfl⟩
  · exact ⟨rfl, rfl, rfl, rfl, rfl⟩

theorem setResponseCode_of_closed (code : Int) (rate : Float64) (s : Ctx)
    (h : code = 200 ∨
      Float64.le (s.rng.draws s.rng.pos) (Float64.div rate (Float64.const 100)) = false) :
    (setResponseCode code rate s).w = s.w ∧
    (setResponseCode code rate s).panicked = s.panicked := by
  unfold setResponseCode
  rcases h with h | h
  · simp [h]
  · by_cases hc : code = 200
    · simp [hc]
    · simp [hc, Rand.Float64, h]

theorem setResponseCode_of_open (code : Int) (rate : Float64) (s : Ctx) (hc : code ≠ 200)
    (h : Float64.le (s.rng.draws s.rng.pos) (Float64.div rate (Float64.const 100)) = true) :
    setResponseCode code rate s = Ctx.WriteHeader { s with rng := s.rng.Float64.2 } code := by
  unfold setResponseCode
  simp [hc, Rand.Float64, h]

theorem setResponseCode_data (code : Int) (rate : Float64) (s : Ctx) :
    (setResponseCode code rate s).w.body = s.w.body ∧
    (setResponseCode code rate s).w.buffered = s.w.buffered ∧
    (setResponseCode code rate s).w.flushed = s.w.flushed ∧
    (setResponseCode code rate s).slept = s.slept ∧
    (setResponseCode code rate s).rng.draws = s.rng.draws ∧
    (setResponseCode code rate s).rng.pos = s.rng.pos + (if code = 200 then 0 else 1) := by
  unfold setResponseCode
  by_cases hc : code = 200
  · simp [hc]
  · simp only [ne_eq, hc, not_false_eq_true, if_true, if_false]
    split
    · obtain ⟨h1, h2, h3, h4, h5⟩ :=
        CtxWriteHeader_data { s with rng := s.rng.Float64.2 } code
      rw [h5]
      exact ⟨h1, h2, h3, h4, rfl, rfl⟩
    · exact ⟨rfl, rfl, rfl, rfl, rfl, rfl⟩

theorem beforeDelay_none (code : Int) (rate : Float64) (r : Request) (s : Ctx)
    (h : noStatusOverride r) (hs : s.panicked = false) :
    beforeDelay code rate r s = setResponseCode code rate s := by
  unfold beforeDelay
  rw [statusOverride_none r s h]
  simp [hs]

theorem beforeDelay_data (code : Int) (rate : Float64) (r : Request) (s : Ctx) :
    (beforeDelay code rate r s).w.body = s.w.body ∧
    (beforeDelay code rate r s).w.buffered = s.w.buffered ∧
    (beforeDelay code rate r s).w.flushed = s.w.flushed ∧
    (beforeDelay code rate r s).slept = s.slept ∧
    (beforeDelay code rate r s).rng.draws = s.rng.draws := by
  obtain ⟨a1, a2, a3, a4, a5⟩ := statusOverride_data r s
  unfold beforeDelay
  split
  · exact ⟨a1, a2, a3, a4, by rw [a5]⟩
  · obtain ⟨b1, b2, b3, b4, b5, _⟩ := setResponseCode_data code rate (statusOverride r s)
    exact ⟨b1.trans a1, b2.trans a2, b3.trans a3, b4.trans a4, by rw [b5, a5]⟩

/-- Where the random source stands when `setTimeout` is reached. -/
theorem beforeDelay_pos (code : Int) (rate : Float64) (r : Request) (s : Ctx)
    (h : (beforeDelay code rate r s).panicked = false) :
    (beforeDelay code rate r s).rng.pos = s.rng.pos + (if code = 200 then 0 else 1) := by
  unfold beforeDelay at h ⊢
  split
  · rename_i hp
    rw [if_pos hp] at h
    rw [hp] at h
    cases h
  · rw [(setResponseCode_data code rate (statusOverride r s)).2.2.2.2.2,
      (statusOverride_data r s).2.2.2.2]

theorem setTimeout_w (d rate : Float64) (s : Ctx) :
    (setTimeout d rate s).w = s.w ∧ (setTimeout d rate s).panicked = s.panicked := by
  unfold setTimeout
  split
  · split <;> exact ⟨rfl, rfl⟩
  · exact ⟨rfl, rfl⟩

theorem setTimeout_slept (d rate : Float64) (s : Ctx) :
    (setTimeout d rate s).slept =
      if Float64.ne d (Float64.const 0) = true ∧
          Float64.le (s.rng.draws s.rng.pos) (Float64.div rate (Float64.const 100)) = true
      then s.slept ++ [Float64.toInt64 (Float64.mul (Float64.const Millisecond) d)]
      else s.slept := by
  unfold setTimeout
  by_cases hd : Float64.ne d (Float64.const 0) = true
  · by_cases hg : Float64.le (s.rng.draws s.rng.pos)
        (Float64.div rate (Float64.const 100)) = true
    · simp [hd, hg, Rand.Float64]
    · simp [hd, hg, Rand.Float64]
  · simp [hd]

/-- The handler is its steps in sequence, cut short by a panic. -/
theorem httpEcho_eq (text : GoString) (code : Int) (rate delay : Float64)
    (r : Request) (s : Ctx) :
    httpEcho text code rate delay r s =
      if (statusOverride r s).panicked then statusOverride r s
      else if (setResponseCode code rate (statusOverride r s)).panicked then
        setResponseCode code rate (statusOverride r s)
      else
        { w := writeEcho text r (setTimeout (delayTime delay r) rate
            (setResponseCode code rate (statusOverride r s))).w,
          rng := (setTimeout (delayTime delay r) rate
            (setResponseCode code rate (statusOverride r s))).rng,
          slept := (setTimeout (delayTime delay r) rate
            (setResponseCode code rate (statusOverride r s))).slept,
          logged := (setTimeout (delayTime delay r) rate
            (setResponseCode code rate (statusOverride r s))).logged,
          panicked := (setTimeout (delayTime delay r) rate
            (setResponseCode code rate (statusOverride r s))).panicked } := rfl

/-- A run that panicked stopped at the panic. -/
theorem httpEcho_of_panicked (text : GoString) (code : Int) (rate delay : Float64)
    (r : Request) (s : Ctx) (h : (beforeDelay code rate r s).panicked = true) :
    httpEcho text code rate delay r s = beforeDelay code rate r s := by
  rw [httpEcho_eq]
  unfold beforeDelay at h ⊢
  by_cases hp : (statusOverride r s).panicked = true
  · rw [if_pos hp, if_pos hp]
  · rw [if_neg hp] at h
    rw [if_neg hp, if_neg hp, if_pos h]

/-- A run that did not panic went through the delay and the echo. -/
theorem httpEcho_of_ok (text : GoString) (code : Int) (rate delay : Float64)
    (r : Request) (s : Ctx) (h : (beforeDelay code rate r s).panicked = false) :
    (httpEcho text code rate delay r s).w = writeEcho text r (beforeDelay code rate r s).w ∧
    (httpEcho text code rate delay r s).slept =
      (setTimeout (delayTime delay r) rate (beforeDelay code rate r s)).slept ∧
    (httpEcho text code rate delay r s).panicked = false := by
  rw [httpEcho_eq]
  unfold beforeDelay at h ⊢
  by_cases hp : (statusOverride r s).panicked = true
  · rw [if_pos hp, hp] at h
    cases h
  · rw [if_neg hp] at h
    have hq : ¬ (setResponseCode code rate (statusOverride r s)).panicked = true := by
      rw [h]; simp
    rw [if_neg hp, if_neg hq, if_neg hp]
    refine ⟨?_, rfl, ?_⟩
    · show writeEcho text r (setTimeout _ _ _).w = _
      rw [(setTimeout_w _ _ _).1]
    · show (setTimeout _ _ _).panicked = false
      rw [(setTimeout_w _ _ _).2, h]

theorem httpEcho_panicked (text : GoString) (code : Int) (rate delay : Float64)
    (r : Request) (s : Ctx) :
    (httpEcho text code rate delay r s).panicked = (beforeDelay code rate r s).panicked := by
  cases h : (beforeDelay code rate r s).panicked with
  | true => rw [httpEcho_of_panicked text code rate delay r s h, h]
  | false => exact (httpEcho_of_ok text code rate delay r s h).2.2

theorem writeEcho_status (text : GoString) (r : Request) (w : ResponseWriter) :
    (writeEcho text r w).status = if w.wroteHeader then w.status else 200 := by
  unfold writeEcho
  split <;> simp [Fprintln_status, Fprintln_wrote]

theorem writeEcho_calls (text : GoString) (r : Request) (w : ResponseWriter) :
    (writeEcho text r w).headerCalls = w.headerCalls := by
  unfold writeEcho
  split <;> simp [Fprintln_calls]

/-- Under a status that allows a body, the echo starts with the text and a newline. -/
theorem writeEcho_body_prefix (text : GoString) (r : Request) (w : ResponseWriter)
    (ha : bodyAllowedForStatus (if w.wroteHeader then w.status else 200) = true) :
    ∃ rest, (writeEcho text r w).body = w.body ++ (text ++ [10]) ++ rest := by
  unfold writeEcho
  split
  · obtain ⟨r1, h1⟩ := Fprintln_body_prefix (Fprintln w text) (lit "")
    obtain ⟨r2, h2⟩ := Fprintln_body_prefix (Fprintln (Fprintln w text) (lit "")) (lit "Body")
    obtain ⟨r3, h3⟩ := Fprintln_body_prefix
      (Fprintln (Fprintln (Fprintln w text) (lit "")) (lit "Body")) (lit "----")
    obtain ⟨r4, h4⟩ := Fprintln_body_prefix
      (Fprintln (Fprintln (Fprintln (Fprintln w text) (lit "")) (lit "Body")) (lit "----"))
      (ReadAll r (Fprintln w text))
    refine ⟨r1 ++ r2 ++ r3 ++ r4, ?_⟩
    rw [h4, h3, h2, h1, Fprintln_body w text ha]
    simp
  · exact ⟨[], by rw [Fprintln_body w text ha]; simp⟩

/-- The echo when the text and its newline fit the write buffer: the request body is read
whole. -/
theorem writeEcho_body (text : GoString) (r : Request) (w : ResponseWriter)
    (ha : bodyAllowedForStatus (if w.wroteHeader then w.status else 200) = true)
    (hf : w.flushed = false) (hb : w.buffered = 0) (hlen : text.length < 2048) :
    (writeEcho text r w).body =
      if r.body = [] then w.body ++ (text ++ [10])
      else w.body ++ (text ++ [10] ++ [10] ++ lit "Body" ++ [10] ++ lit "----" ++ [10]
        ++ r.body ++ [10]) := by
  have hfl : (Fprintln w text).flushed = false :=
    Write_flushed_of_fits w _ hf hb (by simp; omega)
  have hread : ReadAll r (Fprintln w text) = r.body := by
    simp [ReadAll, hfl]
  have a1 := Fprintln_allowed w text ha
  have a2 := Fprintln_allowed _ (lit "") a1
  have a3 := Fprintln_allowed _ (lit "Body") a2
  have a4 := Fprintln_allowed _ (lit "----") a3
  unfold writeEcho
  rw [hread]
  by_cases hbody : r.body = []
  · simp [hbody, Fprintln_body w text ha]
  · have : r.body.length > 0 := List.length_pos.mpr hbody
    rw [if_pos this, if_neg hbody, Fprintln_body _ _ a4, Fprintln_body _ _ a3,
      Fprintln_body _ _ a2, Fprintln_body _ _ a1, Fprintln_body w text ha]
    simp [lit]

/-- The echo for an empty request body: nothing is there to read, whatever was sent. -/
theorem writeEcho_body_empty (text : GoString) (r : Request) (w : ResponseWriter)
    (ha : bodyAllowedForStatus (if w.wroteHeader then w.status else 200) = true)
    (he : r.body = []) :
    (writeEcho text r w).body = w.body ++ (text ++ [10]) := by
  have hread : ReadAll r (Fprintln w text) = [] := by
    unfold ReadAll
    split
    · rfl
    · exact he
  unfold writeEcho
  rw [hread]
  simp [Fprintln_body w text ha]

/-- The echo when the text and its newline overflow the write buffer: the response header
goes out, the request body below 256 KB is gone, and no banner is written. -/
theorem writeEcho_body_flushed (text : GoString) (r : Request) (w : ResponseWriter)
    (ha : bodyAllowedForStatus (if w.wroteHeader then w.status else 200) = true)
    (hb : w.buffered = 0) (hlen : 2048 ≤ text.length)
    (hsmall : r.body.length < maxPostHandlerReadBytes) :
    (writeEcho text r w).body = w.body ++ (text ++ [10]) := by
  have hfl : (Fprintln w text).flushed = true :=
    Write_flushed_of_overflow w _ hb (by simp; omega) ha
  have hread : ReadAll r (Fprintln w text) = [] := by
    simp [ReadAll, hfl, hsmall]
  unfold writeEcho
  rw [hread]
  simp [Fprintln_body w text ha]

/-- Under a status that allows no body nothing of the echo reaches the body. -/
theorem writeEcho_refused (text : GoString) (r : Request) (w : ResponseWriter)
    (ha : bodyAllowedForStatus (if w.wroteHeader then w.status else 200) = false) :
    (writeEcho text r w).body = w.body := by
  have step : ∀ (w1 : ResponseWriter) (p : GoString),
      bodyAllowedForStatus (if w1.wroteHeader then w1.status else 200) = false →
      (Fprintln w1 p).body = w1.body ∧
      bodyAllowedForStatus
        (if (Fprintln w1 p).wroteHeader then (Fprintln w1 p).status else 200) = false := by
    intro w1 p h1
    refine ⟨(Fprintln_refused w1 p h1).1, ?_⟩
    rw [Fprintln_wrote, Fprintln_status]
    simpa using h1
  obtain ⟨b1, a1⟩ := step w text ha
  obtain ⟨b2, a2⟩ := step _ (lit "") a1
  obtain ⟨b3, a3⟩ := step _ (lit "Body") a2
  obtain ⟨b4, a4⟩ := step _ (lit "----") a3
  obtain ⟨b5, _⟩ := step _ (ReadAll r (Fprintln w text)) a4
  unfold writeEcho
  split
  · rw [b5, b4, b3, b2, b1]
  · exact b1

/-- The sleeps of one run of the echo handler: `time.Sleep` is called once, with the
converted product of `time.Millisecond` and the effective delay, exactly when no
`WriteHeader` call panicked, that delay is not zero and the draw taken by `setTimeout` is
within the rate; the draw is the second one when `setResponseCode` took one before. -/
theorem httpEcho_slept (text : GoString) (code : Int) (rate delay : Float64) (r : Request)
    (rng : Rand) :
    (httpEcho text code rate delay r (Ctx.start rng)).slept =
      if (beforeDelay code rate r (Ctx.start rng)).panicked = false ∧
          Float64.ne (delayTime delay r) (Float64.const 0) = true ∧
          Float64.le (rng.draws (rng.pos + (if code = 200 then 0 else 1)))
            (Float64.div rate (Float64.const 100)) = true
      then [Float64.toInt64 (Float64.mul (Float64.const Millisecond) (delayTime delay r))]
      else [] := by
  obtain ⟨_, _, _, hs, hd⟩ := beforeDelay_data code rate r (Ctx.start rng)
  cases h : (beforeDelay code rate r (Ctx.start rng)).panicked with
  | true =>
    rw [httpEcho_of_panicked text code rate delay r _ h, hs]
    simp [Ctx.start]
  | false =>
    rw [(httpEcho_of_ok text code rate delay r _ h).2.1, setTimeout_slept, hs, hd,
      beforeDelay_pos code rate r _ h]
    simp [Ctx.start]

theorem le_one_of_inUnit {x : Float64} (h : Float64.inUnit x) :
    Float64.le x (Float64.fin false 1) = true := by
  match x, h with
  | .fin false q, h =>
    simp only [Float64.inUnit] at h
    simp [Float64.le, Float64.signed, h.2.le]

theorem delayTime_absent (delay : Float64) (r : Request)
    (h : r.query.Get (lit "response-delay") = []) : delayTime delay r = delay := by
  simp [delayTime, h]

theorem delayTime_present (delay : Float64) (r : Request)
    (h : r.query.Get (lit "response-delay") ≠ []) :
    delayTime delay r = Float64.ofInt (Atoi (r.query.Get (lit "response-delay"))).1 := by
  simp [delayTime, h]

theorem ne_zero_zero : Float64.ne (Float64.fin false 0) (Float64.const 0) = false := by
  simp [Float64.ne, Float64.const, Float64.signed]

theorem ne_50_zero : Float64.ne (Float64.fin false 50) (Float64.const 0) = true := by
  simp [Float64.ne, Float64.const, Float64.signed]

theorem le_zero_zero : Float64.le (Float64.const 0) (Float64.fin false 0) = true := by
  simp [Float64.le, Float64.const, Float64.signed]

theorem le_zero_negZero : Float64.le (Float64.const 0) (Float64.fin true 0) = true := by
  simp [Float64.le, Float64.const, Float64.signed]

/-- At rate 0 a draw inside the open interval from 0 to 1 does not pass the gate. -/
theorem gate_rate_zero_open {x : Float64} (h : Float64.inOpenUnit x) :
    Float64.le x (Float64.div (Float64.const 0) (Float64.const 100)) = false := by
  rw [Float64.div_0_100]
  match x, h with
  | .fin false q, h =>
    simp only [Float64.inOpenUnit] at h
    simp [Float64.le, Float64.signed, h.1]

/-- A rate above 100 lets every draw in [0,1) pass the gate. -/
theorem gate_rate_above_100 {rate x : Float64} (hr : rateAbove100 rate)
    (hx : Float64.inUnit x) :
    Float64.le x (Float64.div rate (Float64.const 100)) = true := by
  match x, hx with
  | .fin false d, hx =>
    simp only [Float64.inUnit] at hx
    match rate, hr with
    | .inf false, _ => simp [Float64.div, Float64.const, Float64.le]
    | .fin false q, hr =>
      simp only [rateAbove100] at hr
      have h100 : ((100 : ℕ) : ℚ) ≠ 0 := by norm_num
      have hq : (1 : ℚ) ≤ q / (100 : ℕ) := by
        rw [le_div_iff₀ (by norm_num)]
        push_cast
        linarith
      simp only [Float64.div, Float64.const, Bool.xor_false, if_neg h100]
      rcases Float64.roundNearest_ge_one false _ hq with h | ⟨v, hv, h⟩
      · rw [h]; simp [Float64.le]
      · rw [h]
        have : d ≤ v := by linarith
        simp [Float64.le, Float64.signed, this]

/-- A rate below 0 stops every draw inside the open interval from 0 to 1 at the gate. -/
theorem gate_rate_below_0_open {rate x : Float64} (hr : rateBelow0 rate)
    (hx : Float64.inOpenUnit x) :
    Float64.le x (Float64.div rate (Float64.const 100)) = false := by
  match x, hx with
  | .fin false d, hx =>
    simp only [Float64.inOpenUnit] at hx
    match rate, hr with
    | .inf true, _ => simp [Float64.div, Float64.const, Float64.le]
    | .fin true q, hr =>
      simp only [rateBelow0] at hr
      have h100 : ((100 : ℕ) : ℚ) ≠ 0 := by norm_num
      have hq : (0 : ℚ) ≤ q / (100 : ℕ) := by positivity
      simp only [Float64.div, Float64.const, Bool.xor_false, if_neg h100]
      rcases Float64.roundNearest_sign true _ hq with h | ⟨v, hv, h⟩
      · rw [h]; simp [Float64.le]
      · rw [h]
        have : -v < d := by linarith
        simp [Float64.le, Float64.signed, this]


/-! ## Runs without a status override -/

theorem start_fields (rng : Rand) :
    (Ctx.start rng).w = ResponseWriter.fresh ∧ (Ctx.start rng).panicked = false ∧
    (Ctx.start rng).rng = rng ∧ (Ctx.start rng).slept = [] := ⟨rfl, rfl, rfl, rfl⟩

/-- Without a status override, when `setResponseCode` does not pass its gate (or the code
is 200), the echo is written on the fresh writer. -/
theorem run_closed (code : Int) (rate : Float64) (r : Request) (rng : Rand)
    (hno : noStatusOverride r)
    (h : code = 200 ∨
      Float64.le (rng.draws rng.pos) (Float64.div rate (Float64.const 100)) = false) :
    (beforeDelay code rate r (Ctx.start rng)).w = ResponseWriter.fresh ∧
    (beforeDelay code rate r (Ctx.start rng)).panicked = false := by
  rw [beforeDelay_none code rate r _ hno rfl]
  exact setResponseCode_of_closed code rate (Ctx.start rng) h

/-- Without a status override, when `setResponseCode` passes its gate with a code that the
writer settles, the echo is written on a writer with that status. -/
theorem run_open (code : Int) (rate : Float64) (r : Request) (rng : Rand)
    (hno : noStatusOverride r) (hc : code ≠ 200) (hs : settles code)
    (h : Float64.le (rng.draws rng.pos) (Float64.div rate (Float64.const 100)) = true) :
    (beforeDelay code rate r (Ctx.start rng)).w =
      { ResponseWriter.fresh with wroteHeader := true, status := code, headerCalls := [code] } ∧
    (beforeDelay code rate r (Ctx.start rng)).panicked = false := by
  rw [beforeDelay_none code rate r _ hno rfl,
    setResponseCode_of_open code rate (Ctx.start rng) hc h,
    CtxWriteHeader_of_settles _ code rfl hs]
  exact ⟨rfl, rfl⟩

/-! ## Status of the echo response -/

/-- C6: without a status override and with default code 200 the response status is 200 for
every rate (NaN, infinities and rates outside 0..100 included) and every random source, and
the writer receives no `WriteHeader` call at all. -/
theorem default_200_always_200 (text : GoString) (rate delay : Float64) (r : Request)
    (rng : Rand) (h : noStatusOverride r) :
    (httpEcho text 200 rate delay r (Ctx.start rng)).w.status = 200 ∧
    (httpEcho text 200 rate delay r (Ctx.start rng)).w.headerCalls = [] := by
  obtain ⟨hw, hp⟩ := run_closed 200 rate r rng h (Or.inl rfl)
  rw [(httpEcho_of_ok text 200 rate delay r _ hp).1, writeEcho_status, writeEcho_calls, hw]
  exact ⟨rfl, rfl⟩

/-- Witness of C6: a request without query, rate 250. -/
theorem default_200_always_200_witness :
    (httpEcho (lit "hello") 200 (Float64.const 250) (Float64.const 0) ⟨[], []⟩
      (Ctx.start ⟨fun _ => Float64.const 0, 0⟩)).w.status = 200 ∧
    (httpEcho (lit "hello") 200 (Float64.const 250) (Float64.const 0) ⟨[], []⟩
      (Ctx.start ⟨fun _ => Float64.const 0, 0⟩)).w.headerCalls = [] :=
  default_200_always_200 (lit "hello") (Float64.const 250) (Float64.const 0) ⟨[], []⟩
    ⟨fun _ => Float64.const 0, 0⟩ (Or.inl (by decide))

/-- C1, as the code has it: when the `status` parameter parses as an integer `N` that the
writer settles (101, or 200 to 999), the response status is `N` for every default code, rate
and random source: `WriteHeader N` is the first call the writer receives, whatever is
written later leaves the status alone, and no call panics. -/
theorem status_override_first_write_wins (text : GoString) (code : Int) (rate delay : Float64)
    (r : Request) (rng : Rand) (N : Int)
    (h : Atoi (r.query.Get (lit "status")) = (N, none)) (hN : settles N) :
    (httpEcho text code rate delay r (Ctx.start rng)).w.status = N ∧
    (httpEcho text code rate delay r (Ctx.start rng)).w.headerCalls.head? = some N ∧
    (httpEcho text code rate delay r (Ctx.start rng)).panicked = false := by
  have h1 : statusOverride r (Ctx.start rng) =
      { Ctx.start rng with w := { ResponseWriter.fresh with
          wroteHeader := true, status := N, headerCalls := [N] } } := by
    rw [statusOverride_some r _ N h, CtxWriteHeader_of_settles _ N rfl hN]
    rfl
  have h2 : (beforeDelay code rate r (Ctx.start rng)).w.status = N ∧
      (beforeDelay code rate r (Ctx.start rng)).w.wroteHeader = true ∧
      (beforeDelay code rate r (Ctx.start rng)).w.headerCalls.head? = some N ∧
      (beforeDelay code rate r (Ctx.start rng)).panicked = false := by
    unfold beforeDelay
    rw [h1]
    simp only [Bool.false_eq_true, if_false, Ctx.start]
    unfold setResponseCode
    split
    · split
      · rw [CtxWriteHeader_of_wrote _ code rfl]
        exact ⟨rfl, rfl, rfl, rfl⟩
      · exact ⟨rfl, rfl, rfl, rfl⟩
    · exact ⟨rfl, rfl, rfl, rfl⟩
  obtain ⟨hs, hw, hc, hp⟩ := h2
  obtain ⟨e1, _, e3⟩ := httpEcho_of_ok text code rate delay r _ hp
  rw [e1, writeEcho_status, writeEcho_calls, hw]
  exact ⟨by simpa using hs, hc, e3⟩

/-- Witness of C1: `status=404` against a default code 503 at rate 100 and draws 0. -/
theorem status_override_first_write_wins_witness :
    (httpEcho (lit "hello") 503 (Float64.const 100) (Float64.const 0)
      ⟨[(lit "status", [lit "404"])], []⟩
      (Ctx.start ⟨fun _ => Float64.const 0, 0⟩)).w.status = 404 ∧
    (httpEcho (lit "hello") 503 (Float64.const 100) (Float64.const 0)
      ⟨[(lit "status", [lit "404"])], []⟩
      (Ctx.start ⟨fun _ => Float64.const 0, 0⟩)).w.headerCalls.head? = some 404 ∧
    (httpEcho (lit "hello") 503 (Float64.const 100) (Float64.const 0)
      ⟨[(lit "status", [lit "404"])], []⟩
      (Ctx.start ⟨fun _ => Float64.const 0, 0⟩)).panicked = false :=
  status_override_first_write_wins (lit "hello") 503 (Float64.const 100) (Float64.const 0)
    ⟨[(lit "status", [lit "404"])], []⟩ ⟨fun _ => Float64.const 0, 0⟩ 404 (by decide)
    (by decide)


/-- C1 as stated fails. With `status=100`, default code 503, rate 100 and draws 0 the
override goes out as an informational response and the response status is the gated 503;
with `status=0` and with `status=1000` the writer panics in `WriteHeader`, the handler ends
there and no status is settled. -/
theorem status_override_not_settled :
    (httpEcho (lit "hello") 503 (Float64.const 100) (Float64.const 0)
      ⟨[(lit "status", [lit "100"])], []⟩
      (Ctx.start ⟨fun _ => Float64.const 0, 0⟩)).w.status = 503 ∧
    (httpEcho (lit "hello") 503 (Float64.const 100) (Float64.const 0)
      ⟨[(lit "status", [lit "0"])], []⟩
      (Ctx.start ⟨fun _ => Float64.const 0, 0⟩)).panicked = true ∧
    (httpEcho (lit "hello") 503 (Float64.const 100) (Float64.const 0)
      ⟨[(lit "status", [lit "0"])], []⟩
      (Ctx.start ⟨fun _ => Float64.const 0, 0⟩)).w.wroteHeader = false ∧
    (httpEcho (lit "hello") 503 (Float64.const 100) (Float64.const 0)
      ⟨[(lit "status", [lit "1000"])], []⟩
      (Ctx.start ⟨fun _ => Float64.const 0, 0⟩)).panicked = true := by
  have hle : Float64.le (Float64.const 0) (Float64.fin false 1) = true := by
    simp [Float64.le, Float64.const, Float64.signed]
  have a100 : Atoi (lit "100") = (100, none) := by decide
  have a0 : Atoi (lit "0") = (0, none) := by decide
  have a1000 : Atoi (lit "1000") = (1000, none) := by decide
  have g100 : Values.Get [(lit "status", [lit "100"])] (lit "status") = lit "100" := by decide
  have g0 : Values.Get [(lit "status", [lit "0"])] (lit "status") = lit "0" := by decide
  have g1000 : Values.Get [(lit "status", [lit "1000"])] (lit "status") = lit "1000" := by
    decide
  have p0 : (beforeDelay 503 (Float64.const 100) ⟨[(lit "status", [lit "0"])], []⟩
      (Ctx.start ⟨fun _ => Float64.const 0, 0⟩)).panicked = true ∧
      (beforeDelay 503 (Float64.const 100) ⟨[(lit "status", [lit "0"])], []⟩
      (Ctx.start ⟨fun _ => Float64.const 0, 0⟩)).w.wroteHeader = false := by
    unfold beforeDelay
    rw [statusOverride_some _ _ 0 (by rw [g0]; exact a0)]
    exact ⟨rfl, rfl⟩
  have p1000 : (beforeDelay 503 (Float64.const 100) ⟨[(lit "status", [lit "1000"])], []⟩
      (Ctx.start ⟨fun _ => Float64.const 0, 0⟩)).panicked = true := by
    unfold beforeDelay
    rw [statusOverride_some _ _ 1000 (by rw [g1000]; exact a1000)]
    rfl
  refine ⟨?_, ?_, ?_, ?_⟩
  · have hb : (beforeDelay 503 (Float64.const 100) ⟨[(lit "status", [lit "100"])], []⟩
        (Ctx.start ⟨fun _ => Float64.const 0, 0⟩)).panicked = false ∧
        (beforeDelay 503 (Float64.const 100) ⟨[(lit "status", [lit "100"])], []⟩
        (Ctx.start ⟨fun _ => Float64.const 0, 0⟩)).w.wroteHeader = true ∧
        (beforeDelay 503 (Float64.const 100) ⟨[(lit "status", [lit "100"])], []⟩
        (Ctx.start ⟨fun _ => Float64.const 0, 0⟩)).w.status = 503 := by
      unfold beforeDelay
      rw [statusOverride_some _ _ 100 (by rw [g100]; exact a100)]
      have hs : (Ctx.start ⟨fun _ => Float64.const 0, 0⟩).WriteHeader 100 =
          { Ctx.start ⟨fun _ => Float64.const 0, 0⟩ with w :=
            { ResponseWriter.fresh with informational := [100], headerCalls := [100] } } := rfl
      rw [hs, if_neg (by simp [Ctx.start]),
        setResponseCode_of_open 503 _ _ (by decide)
          (by rw [Float64.div_100_100]; exact hle)]
      exact ⟨rfl, rfl, rfl⟩
    rw [(httpEcho_of_ok _ _ _ _ _ _ hb.1).1, writeEcho_status, hb.2.1, hb.2.2]
    rfl
  · rw [httpEcho_panicked]; exact p0.1
  · rw [httpEcho_of_panicked _ _ _ _ _ _ p0.1]; exact p0.2
  · rw [httpEcho_panicked]; exact p1000

/-! ## Body of the echo response -/

/-- C5, as the code has it: when the text is shorter than 2048 bytes or the request body is
empty, no `WriteHeader` call panics and the response status allows a body, the bytes the
echo handler writes are the text and a newline when the request body is empty, and
otherwise the text, a newline, an empty line, the line `Body`, the line `----`, and the
request body followed by a newline. -/
theorem echo_body_bytes (text : GoString) (code : Int) (rate delay : Float64) (r : Request)
    (rng : Rand) (hlen : text.length < 2048 ∨ r.body = [])
    (hok : (httpEcho text code rate delay r (Ctx.start rng)).panicked = false)
    (hb : bodyAllowedForStatus
      (httpEcho text code rate delay r (Ctx.start rng)).w.status = true) :
    (httpEcho text code rate delay r (Ctx.start rng)).w.body =
      if r.body = [] then text ++ [10]
      else text ++ [10] ++ [10] ++ lit "Body" ++ [10] ++ lit "----" ++ [10] ++ r.body ++ [10] := by
  rw [httpEcho_panicked] at hok
  obtain ⟨e1, _, _⟩ := httpEcho_of_ok text code rate delay r _ hok
  obtain ⟨d1, d2, d3, _, _⟩ := beforeDelay_data code rate r (Ctx.start rng)
  rw [e1, writeEcho_status] at hb
  by_cases he : r.body = []
  · rw [e1, writeEcho_body_empty text r _ hb he, d1, if_pos he]
    simp [Ctx.start, ResponseWriter.fresh]
  · rcases hlen with hlen | hlen
    · rw [e1, writeEcho_body text r _ hb (by rw [d3]; rfl) (by rw [d2]; rfl) hlen, d1]
      simp [Ctx.start, ResponseWriter.fresh]
    · exact absurd hlen he

/-- Witness of C5: text `hello`, request body `X`, default code 503 at rate 100, draws 0. -/
theorem echo_body_bytes_witness :
    (httpEcho (lit "hello") 503 (Float64.const 100) (Float64.const 0) ⟨[], lit "X"⟩
      (Ctx.start ⟨fun _ => Float64.const 0, 0⟩)).w.body =
      if (⟨[], lit "X"⟩ : Request).body = [] then lit "hello" ++ [10]
      else lit "hello" ++ [10] ++ [10] ++ lit "Body" ++ [10] ++ lit "----" ++ [10]
        ++ (⟨[], lit "X"⟩ : Request).body ++ [10] := by
  have hle : Float64.le (Float64.const 0) (Float64.fin false 1) = true := by
    simp [Float64.le, Float64.const, Float64.signed]
  have hrun := run_open 503 (Float64.const 100) ⟨[], lit "X"⟩ ⟨fun _ => Float64.const 0, 0⟩
    (Or.inl (by decide)) (by decide) (by decide) (by rw [Float64.div_100_100]; exact hle)
  have hw := (httpEcho_of_ok (lit "hello") 503 (Float64.const 100) (Float64.const 0)
    ⟨[], lit "X"⟩ _ hrun.2).1
  apply echo_body_bytes (lit "hello") 503 (Float64.const 100) (Float64.const 0)
    ⟨[], lit "X"⟩ ⟨fun _ => Float64.const 0, 0⟩ (Or.inl (by decide))
  · rw [httpEcho_panicked]; exact hrun.2
  · rw [hw, writeEcho_status, hrun.1]; rfl

/-- C5 as stated fails. With `status=0` the writer panics before anything is written, and
with `status=204` the writer refuses every byte: the body stays empty where the text and a
newline are claimed. With a text of 2048 bytes the first write sends the response header,
the server has closed the request body `X` before the handler reads it, and the body is the
text and a newline without the banner. -/
theorem echo_body_not_written :
    (httpEcho (lit "hello") 200 (Float64.const 100) (Float64.const 0)
      ⟨[(lit "status", [lit "0"])], []⟩
      (Ctx.start ⟨fun _ => Float64.const 0, 0⟩)).w.body = [] ∧
    (httpEcho (lit "hello") 200 (Float64.const 100) (Float64.const 0)
      ⟨[(lit "status", [lit "204"])], []⟩
      (Ctx.start ⟨fun _ => Float64.const 0, 0⟩)).w.body = [] ∧
    (httpEcho (List.replicate 2048 97) 200 (Float64.const 100) (Float64.const 0)
      ⟨[], lit "X"⟩ (Ctx.start ⟨fun _ => Float64.const 0, 0⟩)).w.body
        = List.replicate 2048 97 ++ [10] := by
  have a0 : Atoi (lit "0") = (0, none) := by decide
  have a204 : Atoi (lit "204") = (204, none) := by decide
  have g0 : Values.Get [(lit "status", [lit "0"])] (lit "status") = lit "0" := by decide
  have g204 : Values.Get [(lit "status", [lit "204"])] (lit "status") = lit "204" := by
    decide
  refine ⟨?_, ?_, ?_⟩
  · have p0 : (beforeDelay 200 (Float64.const 100) ⟨[(lit "status", [lit "0"])], []⟩
        (Ctx.start ⟨fun _ => Float64.const 0, 0⟩)).panicked = true := by
      unfold beforeDelay
      rw [statusOverride_some _ _ 0 (by rw [g0]; exact a0)]
      rfl
    rw [httpEcho_of_panicked _ _ _ _ _ _ p0,
      (beforeDelay_data 200 (Float64.const 100) _ _).1]
    rfl
  · have hb : (beforeDelay 200 (Float64.const 100) ⟨[(lit "status", [lit "204"])], []⟩
        (Ctx.start ⟨fun _ => Float64.const 0, 0⟩)).panicked = false ∧
        (beforeDelay 200 (Float64.const 100) ⟨[(lit "status", [lit "204"])], []⟩
        (Ctx.start ⟨fun _ => Float64.const 0, 0⟩)).w.wroteHeader = true ∧
        (beforeDelay 200 (Float64.const 100) ⟨[(lit "status", [lit "204"])], []⟩
        (Ctx.start ⟨fun _ => Float64.const 0, 0⟩)).w.status = 204 := by
      unfold beforeDelay
      rw [statusOverride_some _ _ 204 (by rw [g204]; exact a204),
        CtxWriteHeader_of_settles _ 204 rfl (by decide)]
      exact ⟨rfl, rfl, rfl⟩
    rw [(httpEcho_of_ok _ _ _ _ _ _ hb.1).1,
      writeEcho_refused _ _ _ (by rw [hb.2.1, hb.2.2]; rfl),
      (beforeDelay_data 200 (Float64.const 100) _ _).1]
    rfl
  · obtain ⟨hw, hp⟩ := run_closed 200 (Float64.const 100) ⟨[], lit "X"⟩
      ⟨fun _ => Float64.const 0, 0⟩ (Or.inl (by decide)) (Or.inl rfl)
    rw [(httpEcho_of_ok _ _ _ _ _ _ hp).1, hw,
      writeEcho_body_flushed _ _ _ (by rfl) (by rfl)
        (by rw [List.length_replicate]) (by decide)]
    rfl

/-! ## The health handler -/

/-- C9, as the code has it: for every request, whatever its query, the health handler
writes the fixed text followed by a newline (`Fprintln`), the status is the implicit 200,
and the handler calls `WriteHeader` never. -/
theorem health_body_and_status (r : Request) (rng : Rand) :
    (httpHealth r (Ctx.start rng)).w.body = lit "\x7b\"status\":\"ok\"\x7d" ++ [10] ∧
    (httpHealth r (Ctx.start rng)).w.status = 200 ∧
    (httpHealth r (Ctx.start rng)).w.headerCalls = [] := by
  refine ⟨?_, ?_, ?_⟩
  · show (Fprintln ResponseWriter.fresh _).body = _
    rw [Fprintln_body _ _ (by rfl)]
    rfl
  · show (Fprintln ResponseWriter.fresh _).status = _
    rw [Fprintln_status]
    rfl
  · show (Fprintln ResponseWriter.fresh _).headerCalls = _
    rw [Fprintln_calls]
    rfl

/-- C9 as stated fails: on a request without query the body is not the bare text
`{"status":"ok"}`; it has 16 bytes and ends in a newline. -/
theorem health_body_not_bare :
    (httpHealth ⟨[], []⟩ (Ctx.start ⟨fun _ => Float64.const 0, 0⟩)).w.body
        ≠ lit "\x7b\"status\":\"ok\"\x7d" ∧
    (httpHealth ⟨[], []⟩ (Ctx.start ⟨fun _ => Float64.const 0, 0⟩)).w.body
        = [123, 34, 115, 116, 97, 116, 117, 115, 34, 58, 34, 111, 107, 34, 125, 10] := by
  decide

/-! ## Shutdown -/

theorem NewServer_pastInterrupt (s : ServerState) (e : ServerEvent) (h : pastInterrupt s) :
    pastInterrupt (NewServer s e) := by
  cases s <;> cases e <;> simp_all [pastInterrupt, NewServer] <;>
    (rename_i b; cases b <;> simp [pastInterrupt, NewServer])

theorem runServer_pastInterrupt (es : List ServerEvent) (s : ServerState)
    (h : pastInterrupt s) : pastInterrupt (runServer s es) := by
  induction es generalizing s with
  | nil => exact h
  | cons e es ih => exact ih _ (NewServer_pastInterrupt s e h)

/-- C10: the interrupt takes the listening server into a shutdown whose context times out
after 5 seconds; a shutdown that returns without error ends the process with code 2, one
that returns an error ends it with code 1 (the code of `log.Fatalf`), which differs from 2;
and whatever happens after the interrupt, the process never leaves with code 0. -/
theorem interrupt_shutdown_exit_codes :
    NewServer .listening .interrupt = .shuttingDown 5000000000 ∧
    (∀ t, NewServer (.shuttingDown t) (.shutdownReturned true) = .exited 2) ∧
    (∀ t, NewServer (.shuttingDown t) (.shutdownReturned false) = .exited 1) ∧
    (∀ es, runServer (NewServer .listening .interrupt) es ≠ .exited 0) := by
  refine ⟨by decide, fun _ => rfl, fun _ => rfl, fun es h => ?_⟩
  have hp := runServer_pastInterrupt es (NewServer .listening .interrupt)
    (by simp [NewServer, pastInterrupt])
  rw [h] at hp
  exact hp rfl


/-! ## The rate gate of the default code -/

/-- C3, as the code has it: without a status override, at rate 100 and with a default code
other than 200 that the writer settles (101, or 201 to 999), the response status is the
default code for every random source with draws in [0,1) and no call panics; when the code
allows a body, the body starts with the text and a newline. -/
theorem rate_100_default_code (text : GoString) (code : Int) (delay : Float64) (r : Request)
    (rng : Rand) (hno : noStatusOverride r) (hc : code ≠ 200) (hs : settles code)
    (hd : unitDraws rng) :
    (httpEcho text code (Float64.const 100) delay r (Ctx.start rng)).w.status = code ∧
    (httpEcho text code (Float64.const 100) delay r (Ctx.start rng)).panicked = false ∧
    (bodyAllowedForStatus code = true →
      ∃ rest, (httpEcho text code (Float64.const 100) delay r (Ctx.start rng)).w.body
        = text ++ [10] ++ rest) := by
  have hg : Float64.le (rng.draws rng.pos)
      (Float64.div (Float64.const 100) (Float64.const 100)) = true := by
    rw [Float64.div_100_100]; exact le_one_of_inUnit (hd _)
  obtain ⟨hw, hp⟩ := run_open code (Float64.const 100) r rng hno hc hs hg
  obtain ⟨e1, _, e3⟩ := httpEcho_of_ok text code (Float64.const 100) delay r _ hp
  refine ⟨?_, e3, fun hb => ?_⟩
  · rw [e1, writeEcho_status, hw]
    rfl
  · obtain ⟨rest, hrest⟩ := writeEcho_body_prefix text r
      (beforeDelay code (Float64.const 100) r (Ctx.start rng)).w (by rw [hw]; exact hb)
    refine ⟨rest, ?_⟩
    rw [e1, hrest, hw]
    rfl

/-- Witness of C3: text `hello`, code 503, rate 100, a request without query, draws 0. -/
theorem rate_100_default_code_witness :
    (httpEcho (lit "hello") 503 (Float64.const 100) (Float64.const 0) ⟨[], []⟩
      (Ctx.start ⟨fun _ => Float64.const 0, 0⟩)).w.status = 503 ∧
    ∃ rest, (httpEcho (lit "hello") 503 (Float64.const 100) (Float64.const 0) ⟨[], []⟩
      (Ctx.start ⟨fun _ => Float64.const 0, 0⟩)).w.body = lit "hello" ++ [10] ++ rest := by
  have h := rate_100_default_code (lit "hello") 503 (Float64.const 0) ⟨[], []⟩
    ⟨fun _ => Float64.const 0, 0⟩ (Or.inl (by decide)) (by decide) (by decide)
    (fun _ => by simp [Float64.inUnit, Float64.const])
  exact ⟨h.1, h.2.2 (by decide)⟩

/-- C3 as stated fails. Without a status override, at rate 100 and draws 0: the default
code 100 goes out as an informational response and the response status is 200; with the
default codes 0 and 1000 the writer panics in `WriteHeader` and no status is settled. -/
theorem default_code_not_settled :
    (httpEcho (lit "hello") 100 (Float64.const 100) (Float64.const 0) ⟨[], []⟩
      (Ctx.start ⟨fun _ => Float64.const 0, 0⟩)).w.status = 200 ∧
    (httpEcho (lit "hello") 0 (Float64.const 100) (Float64.const 0) ⟨[], []⟩
      (Ctx.start ⟨fun _ => Float64.const 0, 0⟩)).panicked = true ∧
    (httpEcho (lit "hello") 0 (Float64.const 100) (Float64.const 0) ⟨[], []⟩
      (Ctx.start ⟨fun _ => Float64.const 0, 0⟩)).w.wroteHeader = false ∧
    (httpEcho (lit "hello") 1000 (Float64.const 100) (Float64.const 0) ⟨[], []⟩
      (Ctx.start ⟨fun _ => Float64.const 0, 0⟩)).panicked = true := by
  have hle : Float64.le (Float64.const 0) (Float64.fin false 1) = true := by
    simp [Float64.le, Float64.const, Float64.signed]
  have hno : noStatusOverride ⟨[], []⟩ := Or.inl (by decide)
  have hopen : ∀ code : Int, code ≠ 200 →
      beforeDelay code (Float64.const 100) ⟨[], []⟩ (Ctx.start ⟨fun _ => Float64.const 0, 0⟩)
        = Ctx.WriteHeader
            { Ctx.start ⟨fun _ => Float64.const 0, 0⟩ with
              rng := (Ctx.start ⟨fun _ => Float64.const 0, 0⟩).rng.Float64.2 } code := by
    intro code hc
    rw [beforeDelay_none _ _ _ _ hno rfl,
      setResponseCode_of_open code _ _ hc (by rw [Float64.div_100_100]; exact hle)]
  have p0 := hopen 0 (by decide)
  have p1000 := hopen 1000 (by decide)
  have p100 := hopen 100 (by decide)
  refine ⟨?_, ?_, ?_, ?_⟩
  · have hp : (beforeDelay 100 (Float64.const 100) ⟨[], []⟩
        (Ctx.start ⟨fun _ => Float64.const 0, 0⟩)).panicked = false := by rw [p100]; rfl
    rw [(httpEcho_of_ok _ _ _ _ _ _ hp).1, writeEcho_status, p100]
    rfl
  · rw [httpEcho_panicked, p0]; rfl
  · rw [httpEcho_of_panicked _ _ _ _ _ _ (by rw [p0]; rfl), p0]; rfl
  · rw [httpEcho_panicked, p1000]; rfl

/-- C2 at the failing input: default code 503, rate 0, a request without query, and a
random source whose draw is 0. The comparison `0 <= 0/100` holds, `setResponseCode` calls
`WriteHeader(503)`, and the response status is 503, not 200. -/
theorem rate_zero_draw_zero_writes_default :
    (httpEcho (lit "hello") 503 (Float64.const 0) (Float64.const 0) ⟨[], []⟩
      (Ctx.start ⟨fun _ => Float64.const 0, 0⟩)).w.status = 503 ∧
    (httpEcho (lit "hello") 503 (Float64.const 0) (Float64.const 0) ⟨[], []⟩
      (Ctx.start ⟨fun _ => Float64.const 0, 0⟩)).w.headerCalls = [503] := by
  obtain ⟨hw, hp⟩ := run_open 503 (Float64.const 0) ⟨[], []⟩ ⟨fun _ => Float64.const 0, 0⟩
    (Or.inl (by decide)) (by decide) (by decide)
    (by rw [Float64.div_0_100]; exact le_zero_zero)
  rw [(httpEcho_of_ok _ _ _ _ _ _ hp).1, writeEcho_status, writeEcho_calls, hw]
  exact ⟨rfl, rfl⟩

/-- C8 at the failing input: default code 503, delay 50, the rate is the negative number
closest to zero (`-5e-324`), and the draws are 0. The quotient `rate/100` underflows to the
negative zero, `0 <= -0` holds, and both gated effects apply: the status is 503 and the
handler sleeps 50 ms. -/
theorem negative_rate_draw_zero_applies :
    (httpEcho (lit "hello") 503 (Float64.fin true (2 ^ (-1074 : ℤ))) (Float64.fin false 50)
      ⟨[], []⟩ (Ctx.start ⟨fun _ => Float64.const 0, 0⟩)).w.status = 503 ∧
    (httpEcho (lit "hello") 503 (Float64.fin true (2 ^ (-1074 : ℤ))) (Float64.fin false 50)
      ⟨[], []⟩ (Ctx.start ⟨fun _ => Float64.const 0, 0⟩)).slept = [some 50000000] := by
  have hget : Values.Get ([] : Values) (lit "response-delay") = [] := by decide
  obtain ⟨hw, hp⟩ := run_open 503 (Float64.fin true (2 ^ (-1074 : ℤ))) ⟨[], []⟩
    ⟨fun _ => Float64.const 0, 0⟩ (Or.inl (by decide)) (by decide) (by decide)
    (by rw [Float64.div_minSubnormal_100]; exact le_zero_negZero)
  constructor
  · rw [(httpEcho_of_ok _ _ _ _ _ _ hp).1, writeEcho_status, hw]
    rfl
  · rw [httpEcho_slept, hp, delayTime_absent _ _ hget, Float64.div_minSubnormal_100,
      Float64.mul_ms_50, Float64.toInt64_50ms]
    simp [ne_50_zero, le_zero_negZero]

/-! ## The delay -/

/-- C4 at the failing input: startup delay 100 ms, rate 100, draws 0, and a request with
`response-delay=abc`. `Atoi` fails, its zero result is used all the same: the delay handed
to `setTimeout` is 0 and the handler does not sleep, while the same request without the
parameter sleeps the startup delay of 100 ms. -/
theorem malformed_delay_becomes_zero :
    delayTime (Float64.const 100) ⟨[(lit "response-delay", [lit "abc"])], []⟩
      = Float64.fin false 0 ∧
    (httpEcho (lit "hello") 200 (Float64.const 100) (Float64.const 100)
      ⟨[(lit "response-delay", [lit "abc"])], []⟩
      (Ctx.start ⟨fun _ => Float64.const 0, 0⟩)).slept = [] ∧
    (httpEcho (lit "hello") 200 (Float64.const 100) (Float64.const 100) ⟨[], []⟩
      (Ctx.start ⟨fun _ => Float64.const 0, 0⟩)).slept = [some 100000000] := by
  have hget : Values.Get [(lit "response-delay", [lit "abc"])] (lit "response-delay")
      = lit "abc" := by decide
  have hat : Atoi (lit "abc") = (0, some NumError.ErrSyntax) := by decide
  have hdt : delayTime (Float64.const 100) ⟨[(lit "response-delay", [lit "abc"])], []⟩
      = Float64.fin false 0 := by
    rw [delayTime_present _ _ (by rw [hget]; decide)]
    simp only [hget, hat, Float64.ofInt_zero]
  have hget0 : Values.Get ([] : Values) (lit "response-delay") = [] := by decide
  refine ⟨hdt, ?_, ?_⟩
  · rw [httpEcho_slept, hdt]
    simp [ne_zero_zero]
  · have hne : Float64.ne (Float64.const 100) (Float64.const 0) = true := by
      simp [Float64.ne, Float64.const, Float64.signed]
    have hmul : Float64.mul (Float64.const Millisecond) (Float64.const 100)
        = Float64.fin false 100000000 := by
      have := Float64.roundNearest_natCast false 100000000 (by norm_num)
      simp only [Float64.mul, Float64.const, Millisecond, Bool.xor_false]
      norm_num at this ⊢
      exact this
    have hto : Float64.toInt64 (Float64.fin false 100000000) = some 100000000 := by
      have h : ⌊(100000000 : ℚ)⌋ = 100000000 := by
        exact_mod_cast Int.floor_intCast (100000000 : ℤ)
      simp [Float64.toInt64, h]
    have hp := (run_closed 200 (Float64.const 100) ⟨[], []⟩ ⟨fun _ => Float64.const 0, 0⟩
      (Or.inl (by decide)) (Or.inl rfl)).2
    rw [httpEcho_slept, hp, delayTime_absent _ _ hget0, Float64.div_100_100, hmul, hto]
    have hle : Float64.le (Float64.const 0) (Float64.fin false 1) = true := by
      simp [Float64.le, Float64.const, Float64.signed]
    simp [hne, hle]

/-- C7 as stated fails. `response-delay=9007199254740993` parses as that integer, and the
effective delay is 9007199254740992, the nearest `float64`. With
`status=0&response-delay=50` at rate 100 and draws 0 the writer panics in `WriteHeader`
before `setTimeout` is reached, and the handler does not sleep. -/
theorem delay_override_rounds :
    Atoi (lit "9007199254740993") = (9007199254740993, none) ∧
    delayTime (Float64.const 0) ⟨[(lit "response-delay", [lit "9007199254740993"])], []⟩
      = Float64.fin false 9007199254740992 ∧
    delayTime (Float64.const 0) ⟨[(lit "response-delay", [lit "9007199254740993"])], []⟩
      ≠ Float64.fin false 9007199254740993 ∧
    (httpEcho (lit "hello") 200 (Float64.const 100) (Float64.const 0)
      ⟨[(lit "status", [lit "0"]), (lit "response-delay", [lit "50"])], []⟩
      (Ctx.start ⟨fun _ => Float64.const 0, 0⟩)).slept = [] := by
  have hget : Values.Get [(lit "response-delay", [lit "9007199254740993"])]
      (lit "response-delay") = lit "9007199254740993" := by decide
  have hat : Atoi (lit "9007199254740993") = (9007199254740993, none) := by decide
  have hdt : delayTime (Float64.const 0)
      ⟨[(lit "response-delay", [lit "9007199254740993"])], []⟩
      = Float64.fin false 9007199254740992 := by
    rw [delayTime_present _ _ (by rw [hget]; decide)]
    simp only [hget, hat, Float64.ofInt_2p53_succ]
  refine ⟨hat, hdt, ?_, ?_⟩
  · rw [hdt]
    intro h
    injection h with _ h2
    norm_num at h2
  · have g0 : Values.Get [(lit "status", [lit "0"]), (lit "response-delay", [lit "50"])]
        (lit "status") = lit "0" := by decide
    have a0 : Atoi (lit "0") = (0, none) := by decide
    have p0 : (beforeDelay 200 (Float64.const 100)
        ⟨[(lit "status", [lit "0"]), (lit "response-delay", [lit "50"])], []⟩
        (Ctx.start ⟨fun _ => Float64.const 0, 0⟩)).panicked = true := by
      unfold beforeDelay
      rw [statusOverride_some _ _ 0 (by rw [g0]; exact a0)]
      rfl
    rw [httpEcho_slept, p0]
    simp

/-- C7, as the code has it. When `response-delay` parses as the integer `d`, the effective
delay is `float64(d)` whatever the startup delay, which is `d` itself whenever
`|d| ≤ 2 ^ 53`; for `d = 0` the handler does not sleep. With no such parameter the
effective delay is the startup delay. The handler sleeps only when the effective delay is
not zero and the draw of `setTimeout` is within the rate. With `response-delay=50` and rate
100 it sleeps 50 ms for every random source with draws in [0,1), provided no `WriteHeader`
call panics. -/
theorem delay_override (text : GoString) (code : Int) (rate delay : Float64) (r : Request)
    (rng : Rand) :
    (∀ d : Int, Atoi (r.query.Get (lit "response-delay")) = (d, none) →
      delayTime delay r = Float64.ofInt d ∧
      (|d| ≤ 2 ^ 53 → delayTime delay r = Float64.fin (decide (d < 0)) (|d| : ℤ)) ∧
      (d = 0 → (httpEcho text code rate delay r (Ctx.start rng)).slept = [])) ∧
    (r.query.Get (lit "response-delay") = [] → delayTime delay r = delay) ∧
    ((httpEcho text code rate delay r (Ctx.start rng)).slept ≠ [] →
      Float64.ne (delayTime delay r) (Float64.const 0) = true ∧
      Float64.le (rng.draws (rng.pos + (if code = 200 then 0 else 1)))
        (Float64.div rate (Float64.const 100)) = true ∧
      (httpEcho text code rate delay r (Ctx.start rng)).slept
        = [Float64.toInt64 (Float64.mul (Float64.const Millisecond) (delayTime delay r))]) ∧
    (r.query.Get (lit "response-delay") = lit "50" → unitDraws rng →
      (httpEcho text code (Float64.const 100) delay r (Ctx.start rng)).panicked = false →
      (httpEcho text code (Float64.const 100) delay r (Ctx.start rng)).slept
        = [some (50 * (Millisecond : ℤ))]) := by
  refine ⟨?_, delayTime_absent delay r, ?_, ?_⟩
  · intro d hd
    have hdt : delayTime delay r = Float64.ofInt d := by
      rw [delayTime_present _ _ (get_ne_nil_of_Atoi hd), hd]
    refine ⟨hdt, fun hb => by rw [hdt, Float64.ofInt_exact d hb], fun h0 => ?_⟩
    subst h0
    rw [httpEcho_slept, hdt, Float64.ofInt_zero]
    simp [ne_zero_zero]
  · intro hne
    rw [httpEcho_slept] at hne ⊢
    by_cases hcond : (beforeDelay code rate r (Ctx.start rng)).panicked = false ∧
        Float64.ne (delayTime delay r) (Float64.const 0) = true ∧
        Float64.le (rng.draws (rng.pos + (if code = 200 then 0 else 1)))
          (Float64.div rate (Float64.const 100)) = true
    · rw [if_pos hcond]
      exact ⟨hcond.2.1, hcond.2.2, rfl⟩
    · rw [if_neg hcond] at hne
      exact absurd rfl hne
  · intro h50 hu hok
    have hat : Atoi (lit "50") = (50, none) := by decide
    have hdt : delayTime delay r = Float64.fin false 50 := by
      rw [delayTime_present _ _ (by rw [h50]; decide), h50, hat]
      exact Float64.ofInt_50
    rw [httpEcho_panicked] at hok
    rw [httpEcho_slept, hok, hdt, Float64.div_100_100, Float64.mul_ms_50,
      Float64.toInt64_50ms]
    simp [ne_50_zero, le_one_of_inUnit (hu _), Millisecond]

/-- Witness of C7: `response-delay=50` against a startup delay of 100 ms, at rate 100 and
draws 0. -/
theorem delay_override_witness :
    delayTime (Float64.const 100) ⟨[(lit "response-delay", [lit "50"])], []⟩
      = Float64.fin false 50 ∧
    (httpEcho (lit "hello") 200 (Float64.const 100) (Float64.const 100)
      ⟨[(lit "response-delay", [lit "50"])], []⟩
      (Ctx.start ⟨fun _ => Float64.const 0, 0⟩)).slept = [some (50 * (Millisecond : ℤ))] := by
  have h := delay_override (lit "hello") 200 (Float64.const 100) (Float64.const 100)
    ⟨[(lit "response-delay", [lit "50"])], []⟩ ⟨fun _ => Float64.const 0, 0⟩
  have hp := (run_closed 200 (Float64.const 100) ⟨[(lit "response-delay", [lit "50"])], []⟩
    ⟨fun _ => Float64.const 0, 0⟩ (Or.inl (by decide)) (Or.inl rfl)).2
  refine ⟨?_, h.2.2.2 (by decide) (fun _ => by simp [Float64.inUnit, Float64.const])
    (by rw [httpEcho_panicked]; exact hp)⟩
  have h1 := (h.1 50 (by decide)).2.1 (by norm_num)
  simpa using h1

/-! ## The gate away from the draw 0 -/

/-- At rate 0, with draws inside the open interval from 0 to 1, a request without status
override gets status 200 and the writer receives no `WriteHeader` call. -/
theorem rate_zero_open_draws_200 (text : GoString) (code : Int) (delay : Float64)
    (r : Request) (rng : Rand) (hno : noStatusOverride r) (hd : openDraws rng) :
    (httpEcho text code (Float64.const 0) delay r (Ctx.start rng)).w.status = 200 ∧
    (httpEcho text code (Float64.const 0) delay r (Ctx.start rng)).w.headerCalls = [] := by
  obtain ⟨hw, hp⟩ := run_closed code (Float64.const 0) r rng hno
    (Or.inr (gate_rate_zero_open (hd _)))
  rw [(httpEcho_of_ok _ _ _ _ _ _ hp).1, writeEcho_status, writeEcho_calls, hw]
  exact ⟨rfl, rfl⟩

/-- At a rate above 100, with draws in [0,1), a request without status override gets the
default code when that is not 200 and the writer settles it, and the handler calls
`time.Sleep` whenever the effective delay is not zero and no `WriteHeader` call panics. -/
theorem rate_above_100_applies (text : GoString) (code : Int) (rate delay : Float64)
    (r : Request) (rng : Rand) (hno : noStatusOverride r) (hr : rateAbove100 rate)
    (hd : unitDraws rng) :
    (code ≠ 200 → settles code →
      (httpEcho text code rate delay r (Ctx.start rng)).w.status = code) ∧
    (Float64.ne (delayTime delay r) (Float64.const 0) = true →
      (httpEcho text code rate delay r (Ctx.start rng)).panicked = false →
      (httpEcho text code rate delay r (Ctx.start rng)).slept
        = [Float64.toInt64 (Float64.mul (Float64.const Millisecond) (delayTime delay r))]) := by
  constructor
  · intro hc hs
    obtain ⟨hw, hp⟩ := run_open code rate r rng hno hc hs (gate_rate_above_100 hr (hd _))
    rw [(httpEcho_of_ok _ _ _ _ _ _ hp).1, writeEcho_status, hw]
    rfl
  · intro hne hok
    rw [httpEcho_panicked] at hok
    rw [httpEcho_slept, if_pos ⟨hok, hne, gate_rate_above_100 hr (hd _)⟩]

/-- At a rate below 0, with draws inside the open interval from 0 to 1, a request without
status override gets status 200, the writer receives no `WriteHeader` call, and the handler
does not sleep. -/
theorem rate_below_0_open_draws_never (text : GoString) (code : Int) (rate delay : Float64)
    (r : Request) (rng : Rand) (hno : noStatusOverride r) (hr : rateBelow0 rate)
    (hd : openDraws rng) :
    (httpEcho text code rate delay r (Ctx.start rng)).w.status = 200 ∧
    (httpEcho text code rate delay r (Ctx.start rng)).w.headerCalls = [] ∧
    (httpEcho text code rate delay r (Ctx.start rng)).slept = [] := by
  obtain ⟨hw, hp⟩ := run_closed code rate r rng hno
    (Or.inr (gate_rate_below_0_open hr (hd _)))
  refine ⟨?_, ?_, ?_⟩
  · rw [(httpEcho_of_ok _ _ _ _ _ _ hp).1, writeEcho_status, hw]
    rfl
  · rw [(httpEcho_of_ok _ _ _ _ _ _ hp).1, writeEcho_calls, hw]
    rfl
  · rw [httpEcho_slept, gate_rate_below_0_open hr (hd _)]
    simp

end HttpEcho
